import Mathlib

/-!
Shallow embedding of the QuickLendX invoice-factoring contract
(`quicklendx-contracts/src/lib.rs`) and the parts of its missing submodules
that the verified claims depend on.

Conventions of the embedding:
* Soroban `Address` and `BytesN<32>` identifiers are modelled as `Nat`.
* `i128` amounts are modelled as `Int`; saturating arithmetic is explicit
  (`satMulI128`) with the `i128` bounds spelled out.
* Contract storage is one record, `ContractState`.  Every entry point is a
  function `args → ContractState → Except QErr α × ContractState`: the
  returned state carries whatever writes the body performed before an error
  return (the Rust bodies write to storage eagerly and return `Err` as a
  value; no rollback appears in the sources under verification).
* `require_auth` is modelled by membership of the actor in `auths`, the set
  of addresses that have authorized the current call.
* Definitions for code that is in `lib.rs` follow that file statement by
  statement.  Definitions for code that lives in submodules absent from the
  source tree carry a doc comment starting with `Modelled from the spec:`.
-/

set_option maxRecDepth 20000

deriving instance DecidableEq for Except

inductive QErr where
  | InvalidAmount
  | InvoiceDueDateInvalid
  | InvalidDescription
  | InvalidCurrency
  | InvoiceNotFound
  | StorageKeyNotFound
  | InvalidStatus
  | Unauthorized
  | OperationNotAllowed
  | NotAdmin
  | AdminAlreadyInitialized
  | BusinessNotVerified
  | KYCAlreadyPending
  | InvoiceAlreadyFunded
  | DisputeNotFound
  | DisputeAlreadyExists
  | DisputeNotAuthorized
  | InvalidDisputeReason
  | InvalidDisputeEvidence
  | DisputeNotUnderReview
  | InvalidCoveragePercentage
  | EscrowNotFound
  deriving DecidableEq, Repr

inductive InvoiceStatus where
  | Pending
  | Verified
  | Funded
  | Paid
  | Defaulted
  | Cancelled
  deriving DecidableEq, Repr

inductive DisputeStatus where
  | NoDispute
  | Disputed
  | UnderReview
  | Resolved
  deriving DecidableEq, Repr

inductive BidStatus where
  | Placed
  | Accepted
  | Withdrawn
  | Expired
  deriving DecidableEq, Repr

inductive InvestmentStatus where
  | Active
  | Completed
  | Defaulted
  | Withdrawn
  deriving DecidableEq, Repr

inductive EscrowStatus where
  | Funded
  | Released
  | Refunded
  deriving DecidableEq, Repr

inductive VerificationStatus where
  | Pending
  | Verified
  | Rejected
  deriving DecidableEq, Repr

structure Invoice where
  id : Nat
  business : Nat
  amount : Int
  currency : Nat
  dueDate : Nat
  description : String
  status : InvoiceStatus
  disputeStatus : DisputeStatus
  investor : Option Nat
  fundedAmount : Int
  fundedAt : Nat
  totalPaid : Int
  deriving DecidableEq, Repr

structure Bid where
  bidId : Nat
  invoiceId : Nat
  investor : Nat
  bidAmount : Int
  expectedReturn : Int
  timestamp : Nat
  status : BidStatus
  expirationTimestamp : Nat
  deriving DecidableEq, Repr

structure Escrow where
  escrowId : Nat
  invoiceId : Nat
  investor : Nat
  business : Nat
  amount : Int
  currency : Nat
  status : EscrowStatus
  deriving DecidableEq, Repr

structure InsuranceCoverage where
  provider : Nat
  coveragePercentage : Nat
  coverageAmount : Int
  premiumAmount : Int
  active : Bool
  deriving DecidableEq, Repr

structure Investment where
  investmentId : Nat
  invoiceId : Nat
  investor : Nat
  amount : Int
  fundedAt : Nat
  status : InvestmentStatus
  insurance : List InsuranceCoverage
  deriving DecidableEq, Repr

structure Dispute where
  invoiceId : Nat
  createdBy : Nat
  reason : String
  evidence : String
  status : DisputeStatus
  resolution : String
  resolvedBy : Option Nat
  resolvedAt : Nat
  deriving DecidableEq, Repr

structure InvestorVerification where
  investor : Nat
  status : VerificationStatus
  investmentLimit : Int
  totalInvestments : Nat
  successfulInvestments : Nat
  totalAmount : Int
  deriving DecidableEq, Repr

structure ContractState where
  invoices : List Invoice
  pendingIdx : List Nat
  verifiedIdx : List Nat
  fundedIdx : List Nat
  paidIdx : List Nat
  defaultedIdx : List Nat
  cancelledIdx : List Nat
  bids : List Bid
  escrows : List Escrow
  investments : List Investment
  disputes : List Dispute
  investorVerifs : List InvestorVerification
  whitelist : List Nat
  adminA : Option Nat
  bvAdmin : Option Nat
  paymentGuard : Bool
  auths : List Nat
  timestamp : Nat
  nextId : Nat
  deriving DecidableEq, Repr

/-- The deployment state: empty storage, no admin, guard not held. -/
def initState : ContractState where
  invoices := []
  pendingIdx := []
  verifiedIdx := []
  fundedIdx := []
  paidIdx := []
  cancelledIdx := []
  defaultedIdx := []
  bids := []
  escrows := []
  investments := []
  disputes := []
  investorVerifs := []
  whitelist := []
  adminA := none
  bvAdmin := none
  paymentGuard := false
  auths := []
  timestamp := 0
  nextId := 0

/-- Result type of an entry point: the explicit result value together with
the storage as left by the body (writes made before an `Err` return remain). -/
abbrev CallResult (α : Type) := Except QErr α × ContractState

def getInvoice (s : ContractState) (invoiceId : Nat) : Option Invoice :=
  s.invoices.find? (fun i => i.id = invoiceId)

def getBid (s : ContractState) (bidId : Nat) : Option Bid :=
  s.bids.find? (fun b => b.bidId = bidId)

def getEscrowByInvoice (s : ContractState) (invoiceId : Nat) : Option Escrow :=
  s.escrows.find? (fun e => e.invoiceId = invoiceId)

def getInvestment (s : ContractState) (investmentId : Nat) : Option Investment :=
  s.investments.find? (fun i => i.investmentId = investmentId)

def getInvestmentByInvoice (s : ContractState) (invoiceId : Nat) : Option Investment :=
  s.investments.find? (fun i => i.invoiceId = invoiceId)

def getDispute (s : ContractState) (invoiceId : Nat) : Option Dispute :=
  s.disputes.find? (fun d => d.invoiceId = invoiceId)

def getInvestorVerification (s : ContractState) (investor : Nat) : Option InvestorVerification :=
  s.investorVerifs.find? (fun v => v.investor = investor)

/-- Replace the stored invoice that has `inv.id` (InvoiceStorage::update_invoice). -/
def updateInvoiceRecord (inv : Invoice) (s : ContractState) : ContractState :=
  { s with invoices := s.invoices.map (fun i => if i.id = inv.id then inv else i) }

/-- Replace the stored bid that has `b.bidId` (BidStorage::update_bid). -/
def updateBidRecord (b : Bid) (s : ContractState) : ContractState :=
  { s with bids := s.bids.map (fun x => if x.bidId = b.bidId then b else x) }

/-- Replace the stored investment that has `inv.investmentId`
(InvestmentStorage::update_investment). -/
def updateInvestmentRecord (inv : Investment) (s : ContractState) : ContractState :=
  { s with investments :=
      s.investments.map (fun i => if i.investmentId = inv.investmentId then inv else i) }

/-- Replace the stored escrow that has `e.escrowId` (EscrowStorage::update_escrow). -/
def updateEscrowRecord (e : Escrow) (s : ContractState) : ContractState :=
  { s with escrows := s.escrows.map (fun x => if x.escrowId = e.escrowId then e else x) }

def statusIdx (s : ContractState) : InvoiceStatus → List Nat
  | .Pending => s.pendingIdx
  | .Verified => s.verifiedIdx
  | .Funded => s.fundedIdx
  | .Paid => s.paidIdx
  | .Defaulted => s.defaultedIdx
  | .Cancelled => s.cancelledIdx

def setStatusIdx (s : ContractState) (st : InvoiceStatus) (l : List Nat) : ContractState :=
  match st with
  | .Pending => { s with pendingIdx := l }
  | .Verified => { s with verifiedIdx := l }
  | .Funded => { s with fundedIdx := l }
  | .Paid => { s with paidIdx := l }
  | .Defaulted => { s with defaultedIdx := l }
  | .Cancelled => { s with cancelledIdx := l }

/-- InvoiceStorage::remove_from_status_invoices (removes the first occurrence). -/
def removeFromStatusIdx (st : InvoiceStatus) (invoiceId : Nat) (s : ContractState) : ContractState :=
  setStatusIdx s st ((statusIdx s st).erase invoiceId)

/-- InvoiceStorage::add_to_status_invoices (appends to the list). -/
def addToStatusIdx (st : InvoiceStatus) (invoiceId : Nat) (s : ContractState) : ContractState :=
  setStatusIdx s st (statusIdx s st ++ [invoiceId])

/-- Modelled from the spec: `CurrencyWhitelist::require_allowed_currency`
(currency.rs is not among the sources).  The dispute test suite stores
invoices with freshly generated, never-whitelisted currencies and expects
success, so an unconfigured (empty) whitelist admits every token; once the
whitelist is non-empty only its members are allowed. -/
def currencyAllowed (s : ContractState) (currency : Nat) : Bool :=
  s.whitelist.isEmpty || s.whitelist.contains currency

def i128Max : Int := 2 ^ 127 - 1

def i128Min : Int := -(2 ^ 127)

/-- Rust `i128::saturating_mul`, spelled out on `Int`. -/
def satMulI128 (a b : Int) : Int :=
  let p := a * b
  if p > i128Max then i128Max else if p < i128Min then i128Min else p

/-- Modelled from the spec: the fixed basis-point insurance premium rate
(`DEFAULT_INSURANCE_PREMIUM_BPS` of investment.rs, not among the sources).
`test_premium_and_coverage_math_exact` pins it: amount 10000 at 80% cover
yields coverage 8000 and premium 160, hence 200 bps. -/
def DEFAULT_INSURANCE_PREMIUM_BPS : Int := 200

/-- Modelled from the spec: `Investment::calculate_premium` (investment.rs is
not among the sources).  Coverage is `amount * pct / 100` and the premium is
`coverage * rate_bps / 10000`, both with saturating multiplication
(`test_large_values_handle_saturation`); non-positive amounts, a zero
percentage or zero coverage give premium 0, and a positive coverage is
charged at least one unit (`test_premium_and_coverage_math_exact` expects
premium 1 for amount 500 at 1%, where the plain quotient is 0). -/
def calculatePremium (amount : Int) (coveragePercentage : Nat) : Int :=
  if amount ≤ 0 ∨ coveragePercentage = 0 then 0
  else
    let coverage := satMulI128 amount (Int.ofNat coveragePercentage) / 100
    if coverage ≤ 0 then 0
    else max (satMulI128 coverage DEFAULT_INSURANCE_PREMIUM_BPS / 10000) 1

example : calculatePremium 10000 80 = 160 := by decide
example : calculatePremium 500 1 = 1 := by decide
example : calculatePremium 50 1 = 0 := by decide
example : calculatePremium 0 50 = 0 := by decide
example : calculatePremium 1000 0 = 0 := by decide
example : calculatePremium 1000 50 = 10 := by decide
example : calculatePremium (-10) 10 = 0 := by decide

/-- Modelled from the spec: the fixed bid expiration window
(`Bid::default_expiration`, bid.rs is not among the sources): default
expiration is placement time plus a fixed window. -/
def bidExpirationWindow : Nat := 7 * 24 * 60 * 60

/-- Default grace period before an invoice may be marked defaulted
(7 days, per the `mark_invoice_defaulted` doc comment in lib.rs). -/
def DEFAULT_GRACE_PERIOD : Nat := 7 * 24 * 60 * 60

/-- Invoice::verify (invoice.rs is not among the sources).  Modelled from the
spec: it records the verifier and flips the status to `Verified`
unconditionally — both call sites in lib.rs (`verify_invoice`,
`update_invoice_status`) treat it as infallible, and `verify_invoice`
performs the `Pending` precondition check itself before calling it. -/
def verifyRecord (inv : Invoice) : Invoice :=
  { inv with status := .Verified }

/-- Invoice::mark_as_funded (invoice.rs is not among the sources).  Modelled
from the spec: records the funding investor, funded amount and timestamp and
sets the status to `Funded`; treated as infallible by both call sites. -/
def markAsFunded (inv : Invoice) (investor : Nat) (amount : Int) (ts : Nat) : Invoice :=
  { inv with status := .Funded, investor := some investor, fundedAmount := amount, fundedAt := ts }

/-- Invoice::mark_as_paid (invoice.rs is not among the sources).  Modelled
from the spec: sets the status to `Paid`; treated as infallible by its call
sites. -/
def markAsPaid (inv : Invoice) : Invoice :=
  { inv with status := .Paid }

/-- Invoice::mark_as_defaulted (invoice.rs is not among the sources).
Modelled from the spec: sets the status to `Defaulted`. -/
def markAsDefaulted (inv : Invoice) : Invoice :=
  { inv with status := .Defaulted }

/-- Invoice::cancel (invoice.rs is not among the sources).  Modelled from the
spec and the lib.rs call-site comment: cancellation only works from
`Pending` or `Verified` and otherwise fails. -/
def cancelRecord (inv : Invoice) : Except QErr Invoice :=
  if inv.status = .Pending ∨ inv.status = .Verified then
    .ok { inv with status := .Cancelled }
  else
    .error .InvalidStatus

/-- Modelled from the spec: the lazy expired-bid sweep of
`BidStorage::cleanup_expired_bids` (bid.rs is not among the sources): any
bid of the invoice whose expiration timestamp has passed and that is still
`Placed` is marked `Expired`. -/
def sweepBid (invoiceId : Nat) (now : Nat) (b : Bid) : Bid :=
  if b.invoiceId = invoiceId ∧ b.status = .Placed ∧ b.expirationTimestamp < now then
    { b with status := .Expired }
  else b

/-- State effect of `BidStorage::cleanup_expired_bids` for one invoice. -/
def cleanupExpiredBids (invoiceId : Nat) (s : ContractState) : ContractState :=
  { s with bids := s.bids.map (sweepBid invoiceId s.timestamp) }

/-- Modelled from the spec: `reentrancy::with_payment_guard` (reentrancy.rs
is not among the sources).  The guard flag is set for the duration of the
protected body; a call that finds it already set fails immediately with
`OperationNotAllowed` (the reentrancy error documented on
`accept_bid_and_fund`); the flag is cleared on every exit path of the body,
success and failure alike. -/
def withPaymentGuard (body : ContractState → CallResult α) (s : ContractState) : CallResult α :=
  if s.paymentGuard then (.error .OperationNotAllowed, s)
  else
    let r := body { s with paymentGuard := true }
    (r.1, { r.2 with paymentGuard := false })

/-- Modelled from the spec: `payments::create_escrow` (payments.rs is not
among the sources).  Moves the bid amount from the investor into escrow
custody and stores the escrow record with status `Funded`.  An escrow is
created exactly once per invoice and never re-created, so a second creation
for the same invoice fails (`InvoiceAlreadyFunded`, from the documented
error set of `accept_bid_and_fund`). -/
def createEscrow (invoiceId investor business : Nat) (amount : Int) (currency : Nat)
    (s : ContractState) : CallResult Nat :=
  match getEscrowByInvoice s invoiceId with
  | some _ => (.error .InvoiceAlreadyFunded, s)
  | none =>
    let escrowId := s.nextId
    let e : Escrow :=
      { escrowId, invoiceId, investor, business, amount, currency, status := .Funded }
    (.ok escrowId, { s with escrows := s.escrows ++ [e], nextId := s.nextId + 1 })

/-- Modelled from the spec: `payments::release_escrow` (payments.rs is not
among the sources).  Moves custody to the business; only a `Funded` escrow
can be released (release and refund are mutually exclusive terminal
transitions). -/
def releaseEscrow (invoiceId : Nat) (s : ContractState) : CallResult Unit :=
  match getEscrowByInvoice s invoiceId with
  | none => (.error .EscrowNotFound, s)
  | some e =>
    if e.status ≠ .Funded then (.error .InvalidStatus, s)
    else (.ok (), updateEscrowRecord { e with status := .Released } s)

/-- Modelled from the spec: `payments::refund_escrow` (payments.rs is not
among the sources).  Moves custody back to the investor; only a `Funded`
escrow can be refunded. -/
def refundEscrow (invoiceId : Nat) (s : ContractState) : CallResult Unit :=
  match getEscrowByInvoice s invoiceId with
  | none => (.error .EscrowNotFound, s)
  | some e =>
    if e.status ≠ .Funded then (.error .InvalidStatus, s)
    else (.ok (), updateEscrowRecord { e with status := .Refunded } s)

/-- Modelled from the spec: `verification::update_investor_analytics`
(verification.rs is not among the sources).  Records one finished
investment for the investor — total count, success count when
`isSuccessful`, and volume; fails (without mutating) when the investor has
no verification record. -/
def updateInvestorAnalytics (investor : Nat) (amount : Int) (isSuccessful : Bool)
    (s : ContractState) : CallResult Unit :=
  match getInvestorVerification s investor with
  | none => (.error .BusinessNotVerified, s)
  | some v =>
    let v2 := { v with
      totalInvestments := v.totalInvestments + 1,
      successfulInvestments := v.successfulInvestments + (if isSuccessful then 1 else 0),
      totalAmount := v.totalAmount + amount }
    let verifs := s.investorVerifs.map (fun x => if x.investor = investor then v2 else x)
    (.ok (), { s with investorVerifs := verifs })

/-- `store_invoice` (lib.rs): unauthenticated entry point that validates the
invoice fields and stores a new `Pending` invoice.  Category and tag
validation of the Rust code concerns fields this embedding does not carry. -/
def storeInvoice (business : Nat) (amount : Int) (currency : Nat) (dueDate : Nat)
    (description : String) (s : ContractState) : CallResult Nat :=
  if amount ≤ 0 then (.error .InvalidAmount, s)
  else if dueDate ≤ s.timestamp then (.error .InvoiceDueDateInvalid, s)
  else if description.length = 0 then (.error .InvalidDescription, s)
  else if ¬currencyAllowed s currency then (.error .InvalidCurrency, s)
  else
    let invoiceId := s.nextId
    let inv : Invoice :=
      { id := invoiceId, business, amount, currency, dueDate, description,
        status := .Pending, disputeStatus := .NoDispute, investor := none,
        fundedAmount := 0, fundedAt := 0, totalPaid := 0 }
    let s1 := { s with invoices := s.invoices ++ [inv], nextId := s.nextId + 1 }
    (.ok invoiceId, addToStatusIdx .Pending invoiceId s1)

/-- `release_escrow_funds` (lib.rs): guarded; looks up the escrow of the
invoice and releases it to the business. -/
def releaseEscrowFunds (invoiceId : Nat) (s : ContractState) : CallResult Unit :=
  withPaymentGuard (fun s0 =>
    match getEscrowByInvoice s0 invoiceId with
    | none => (.error .StorageKeyNotFound, s0)
    | some _ => releaseEscrow invoiceId s0) s

/-- `verify_invoice` (lib.rs): admin-only; requires the invoice to be
`Pending`, moves it to the `Verified` index, and afterwards — if the
invoice's status is `Funded` — releases the escrow funds to the business. -/
def verifyInvoice (invoiceId : Nat) (s : ContractState) : CallResult Unit :=
  match s.adminA with
  | none => (.error .NotAdmin, s)
  | some admin =>
    if admin ∉ s.auths then (.error .Unauthorized, s)
    else
      match getInvoice s invoiceId with
      | none => (.error .InvoiceNotFound, s)
      | some inv =>
        if inv.status ≠ .Pending then (.error .InvalidStatus, s)
        else
          let s1 := removeFromStatusIdx .Pending invoiceId s
          let inv2 := verifyRecord inv
          let s2 := updateInvoiceRecord inv2 s1
          let s3 := addToStatusIdx .Verified invoiceId s2
          if inv2.status = .Funded then
            let r := releaseEscrowFunds invoiceId s3
            (r.1.map (fun _ => ()), r.2)
          else (.ok (), s3)

/-- `cancel_invoice` (lib.rs): business-only; removes the invoice from its
status index, cancels it (which only works from `Pending` or `Verified`)
and files it under `Cancelled`. -/
def cancelInvoice (invoiceId : Nat) (s : ContractState) : CallResult Unit :=
  match getInvoice s invoiceId with
  | none => (.error .InvoiceNotFound, s)
  | some inv =>
    if inv.business ∉ s.auths then (.error .Unauthorized, s)
    else
      let s1 := removeFromStatusIdx inv.status invoiceId s
      match cancelRecord inv with
      | .error e => (.error e, s1)
      | .ok inv2 =>
        let s2 := updateInvoiceRecord inv2 s1
        (.ok (), addToStatusIdx .Cancelled invoiceId s2)

/-- `update_invoice_status` (lib.rs): no authorization check; removes the
invoice from its current status index, applies the requested transition
(only `Verified`, `Paid`, `Defaulted` and `Funded` are accepted — the
rejection happens after the index removal), and files the invoice under its
new status. -/
def updateInvoiceStatus (invoiceId : Nat) (newStatus : InvoiceStatus)
    (s : ContractState) : CallResult Unit :=
  match getInvoice s invoiceId with
  | none => (.error .InvoiceNotFound, s)
  | some inv =>
    let s1 := removeFromStatusIdx inv.status invoiceId s
    let inv2? : Option Invoice :=
      match newStatus with
      | .Verified => some (verifyRecord inv)
      | .Paid => some (markAsPaid inv)
      | .Defaulted => some (markAsDefaulted inv)
      | .Funded => some (markAsFunded inv inv.business inv.amount s1.timestamp)
      | _ => none
    match inv2? with
    | none => (.error .InvalidStatus, s1)
    | some inv2 =>
      let s2 := updateInvoiceRecord inv2 s1
      (.ok (), addToStatusIdx inv2.status invoiceId s2)

/-- `place_bid` (lib.rs): investor-authorized; requires a positive amount, a
`Verified` invoice with an allowed currency and a verified investor within
their investment limit; sweeps expired bids, then stores a `Placed` bid
with the default expiration window.  (`validate_bid` of verification.rs is
not among the sources; modelled from the spec, its conditions are the ones
already enforced here.) -/
def placeBid (investor invoiceId : Nat) (bidAmount expectedReturn : Int)
    (s : ContractState) : CallResult Nat :=
  if investor ∉ s.auths then (.error .Unauthorized, s)
  else if bidAmount ≤ 0 then (.error .InvalidAmount, s)
  else
    match getInvoice s invoiceId with
    | none => (.error .InvoiceNotFound, s)
    | some inv =>
      if inv.status ≠ .Verified then (.error .InvalidStatus, s)
      else if ¬currencyAllowed s inv.currency then (.error .InvalidCurrency, s)
      else
        match getInvestorVerification s investor with
        | none => (.error .BusinessNotVerified, s)
        | some v =>
          match v.status with
          | .Pending => (.error .KYCAlreadyPending, s)
          | .Rejected => (.error .BusinessNotVerified, s)
          | .Verified =>
            if bidAmount > v.investmentLimit then (.error .InvalidAmount, s)
            else
              let s1 := cleanupExpiredBids invoiceId s
              let bidId := s1.nextId
              let bid : Bid :=
                { bidId, invoiceId, investor, bidAmount, expectedReturn,
                  timestamp := s1.timestamp, status := .Placed,
                  expirationTimestamp := s1.timestamp + bidExpirationWindow }
              (.ok bidId, { s1 with bids := s1.bids ++ [bid], nextId := s1.nextId + 1 })

/-- `withdraw_bid` (lib.rs): bid-owner-only; only a `Placed` bid can be
withdrawn; no expiration sweep is performed. -/
def withdrawBid (bidId : Nat) (s : ContractState) : CallResult Unit :=
  match getBid s bidId with
  | none => (.error .StorageKeyNotFound, s)
  | some bid =>
    if bid.investor ∉ s.auths then (.error .Unauthorized, s)
    else if bid.status ≠ .Placed then (.error .OperationNotAllowed, s)
    else (.ok (), updateBidRecord { bid with status := .Withdrawn } s)

/-- Body of `accept_bid_impl` (lib.rs), kept with the explicit result of the
escrow creation so that it can also serve as the model of
`escrow::accept_bid_and_fund` (escrow.rs is not among the sources), which
per the spec performs the same funding unit and returns the escrow id:
sweep expired bids, fetch invoice and bid (re-fetching the bid after a
second sweep keyed by the bid's own invoice), authorize the business, and —
when the invoice is `Verified` and the bid `Placed` — create the escrow
over the bid amount, mark the bid `Accepted`, mark the invoice `Funded` and
store an `Active` investment over the bid amount. -/
def acceptBidCore (invoiceIdArg bidIdArg : Nat) (s0 : ContractState) : CallResult Nat :=
  let s1 := cleanupExpiredBids invoiceIdArg s0
  match getInvoice s1 invoiceIdArg with
  | none => (.error .InvoiceNotFound, s1)
  | some invoice =>
    match getBid s1 bidIdArg with
    | none => (.error .StorageKeyNotFound, s1)
    | some bidA =>
      let invId := bidA.invoiceId
      let s2 := cleanupExpiredBids invId s1
      match getBid s2 bidIdArg with
      | none => (.error .StorageKeyNotFound, s2)
      | some bid =>
        if invoice.business ∉ s2.auths then (.error .Unauthorized, s2)
        else if ¬(invoice.status = .Verified ∧ bid.status = .Placed) then
          (.error .InvalidStatus, s2)
        else
          match createEscrow invId bid.investor invoice.business bid.bidAmount
              invoice.currency s2 with
          | (.error e, s3) => (.error e, s3)
          | (.ok escrowId, s3) =>
            let s4 := updateBidRecord { bid with status := .Accepted } s3
            let invoice2 := markAsFunded invoice bid.investor bid.bidAmount s4.timestamp
            let s5 := updateInvoiceRecord invoice2 s4
            let investmentId := s5.nextId
            let investment : Investment :=
              { investmentId, invoiceId := invId, investor := bid.investor,
                amount := bid.bidAmount, fundedAt := s5.timestamp,
                status := .Active, insurance := [] }
            let s6 := { s5 with investments := s5.investments ++ [investment],
                                nextId := s5.nextId + 1 }
            (.ok escrowId, s6)

/-- `accept_bid` (lib.rs): `accept_bid_impl` under the payment guard. -/
def acceptBid (invoiceId bidId : Nat) (s : ContractState) : CallResult Unit :=
  withPaymentGuard (fun s0 =>
    let r := acceptBidCore invoiceId bidId s0
    (r.1.map (fun _ => ()), r.2)) s

/-- `accept_bid_and_fund` (lib.rs): the escrow-module funding unit under the
payment guard, returning the new escrow id. -/
def acceptBidAndFund (invoiceId bidId : Nat) (s : ContractState) : CallResult Nat :=
  withPaymentGuard (acceptBidCore invoiceId bidId) s

/-- Investment::add_insurance (investment.rs is not among the sources).
Modelled from the spec and `test_investment_helpers_cover_branches`: the
coverage percentage must lie in (0,100], the premium must be positive, and
at most one active insurance entry may exist at a time; on success the
coverage amount `amount * pct / 100` (saturating multiplication) is
computed and an active entry is appended, returning the coverage amount. -/
def addInsurance (inv : Investment) (provider : Nat) (pct : Nat) (premium : Int) :
    Except QErr (Int × Investment) :=
  if pct = 0 ∨ pct > 100 then .error .InvalidCoveragePercentage
  else if premium ≤ 0 then .error .InvalidAmount
  else if inv.insurance.any (fun c => c.active) then .error .OperationNotAllowed
  else
    let coverageAmount := satMulI128 inv.amount (Int.ofNat pct) / 100
    let entry : InsuranceCoverage :=
      { provider, coveragePercentage := pct, coverageAmount,
        premiumAmount := premium, active := true }
    .ok (coverageAmount, { inv with insurance := inv.insurance ++ [entry] })

/-- `add_investment_insurance` (lib.rs): investor-authorized; the investment
must be `Active`; the computed premium must be positive; on success the
insurance entry is stored on the investment. -/
def addInvestmentInsurance (investmentId provider : Nat) (coveragePercentage : Nat)
    (s : ContractState) : CallResult Unit :=
  match getInvestment s investmentId with
  | none => (.error .StorageKeyNotFound, s)
  | some investment =>
    if investment.investor ∉ s.auths then (.error .Unauthorized, s)
    else if investment.status ≠ .Active then (.error .InvalidStatus, s)
    else
      let premium := calculatePremium investment.amount coveragePercentage
      if premium ≤ 0 then (.error .InvalidAmount, s)
      else
        match addInsurance investment provider coveragePercentage premium with
        | .error e => (.error e, s)
        | .ok (_, investment2) => (.ok (), updateInvestmentRecord investment2 s)

/-- Modelled from the spec: `settlement::settle_invoice` (settlement.rs is
not among the sources).  Applies a full payment to a `Funded` invoice:
the payment must cover the outstanding balance; the invoice moves
`Funded → Paid` (index membership included) and the investment is marked
`Completed`.  Profit and platform-fee computation concern amounts this
embedding does not track further. -/
def doSettleInvoice (invoiceId : Nat) (paymentAmount : Int) (s : ContractState) :
    CallResult Unit :=
  match getInvoice s invoiceId with
  | none => (.error .InvoiceNotFound, s)
  | some inv =>
    if inv.status ≠ .Funded then (.error .InvalidStatus, s)
    else if paymentAmount < inv.amount - inv.totalPaid then (.error .InvalidAmount, s)
    else
      let s1 := removeFromStatusIdx .Funded invoiceId s
      let s2 := updateInvoiceRecord (markAsPaid inv) s1
      let s3 := addToStatusIdx .Paid invoiceId s2
      let s4 :=
        match getInvestmentByInvoice s3 invoiceId with
        | some investment => updateInvestmentRecord { investment with status := .Completed } s3
        | none => s3
      (.ok (), s4)

/-- `settle_invoice` (lib.rs): captures the invoice's investment, runs the
settlement under the payment guard, and — only when the settlement
succeeded — updates the investor's analytics, counting the investment as
successful exactly when the payment amount is at least the stored
investment amount; a failing analytics update is discarded. -/
def settleInvoice (invoiceId : Nat) (paymentAmount : Int) (s : ContractState) :
    CallResult Unit :=
  let investment := getInvestmentByInvoice s invoiceId
  let r := withPaymentGuard (doSettleInvoice invoiceId paymentAmount) s
  match r.1 with
  | .ok _ =>
    match investment with
    | some inv =>
      let isSuccessful := decide (paymentAmount ≥ inv.amount)
      let r2 := updateInvestorAnalytics inv.investor inv.amount isSuccessful r.2
      (.ok (), r2.2)
    | none => (.ok (), r.2)
  | .error e => (.error e, r.2)

/-- Modelled from the spec: `settlement::process_partial_payment`
(settlement.rs is not among the sources).  Reduces the outstanding balance
of a `Funded` invoice without changing its status; the payment must be
positive and strictly below the outstanding balance.  No guard is taken
here: lib.rs wraps its sibling `settle_invoice` in the payment guard at the
entry point, so the settlement module itself runs unguarded. -/
def doProcessPartialPayment (invoiceId : Nat) (paymentAmount : Int)
    (s : ContractState) : CallResult Unit :=
  match getInvoice s invoiceId with
  | none => (.error .InvoiceNotFound, s)
  | some inv =>
    if inv.status ≠ .Funded then (.error .InvalidStatus, s)
    else if paymentAmount ≤ 0 then (.error .InvalidAmount, s)
    else if paymentAmount ≥ inv.amount - inv.totalPaid then (.error .InvalidAmount, s)
    else (.ok (), updateInvoiceRecord { inv with totalPaid := inv.totalPaid + paymentAmount } s)

/-- `process_partial_payment` (lib.rs): delegates directly to the settlement
module — unlike every other money-moving entry point, without taking the
payment guard. -/
def processPartialPayment (invoiceId : Nat) (paymentAmount : Int)
    (s : ContractState) : CallResult Unit :=
  doProcessPartialPayment invoiceId paymentAmount s

/-- Modelled from the spec: `escrow::refund_escrow_funds` (escrow.rs is not
among the sources).  A manual reversal triggered by the admin or the
business; requires a `Funded` escrow, which becomes `Refunded`. -/
def doRefundEscrowFunds (invoiceId caller : Nat) (s : ContractState) : CallResult Unit :=
  match getEscrowByInvoice s invoiceId with
  | none => (.error .StorageKeyNotFound, s)
  | some e =>
    if caller ∉ s.auths then (.error .Unauthorized, s)
    else if ¬(some caller = s.bvAdmin ∨ caller = e.business) then (.error .Unauthorized, s)
    else refundEscrow invoiceId s

/-- `refund_escrow_funds` (lib.rs): the escrow-module refund under the
payment guard. -/
def refundEscrowFunds (invoiceId caller : Nat) (s : ContractState) : CallResult Unit :=
  withPaymentGuard (doRefundEscrowFunds invoiceId caller) s

/-- AdminStorage::initialize (admin.rs is not among the sources).  Modelled
from the spec and the `initialize_admin` doc comment in lib.rs: can only be
called once, and requires authorization from the admin address being set. -/
def adminStorageInit (admin : Nat) (s : ContractState) : CallResult Unit :=
  match s.adminA with
  | some _ => (.error .AdminAlreadyInitialized, s)
  | none =>
    if admin ∉ s.auths then (.error .Unauthorized, s)
    else (.ok (), { s with adminA := some admin })

/-- `set_admin` (lib.rs): sets the verification-storage admin; requires the
current admin's authorization when one exists, else the new admin's. -/
def setAdmin (admin : Nat) (s : ContractState) : CallResult Unit :=
  match s.bvAdmin with
  | some current =>
    if current ∉ s.auths then (.error .Unauthorized, s)
    else (.ok (), { s with bvAdmin := some admin })
  | none =>
    if admin ∉ s.auths then (.error .Unauthorized, s)
    else (.ok (), { s with bvAdmin := some admin })

/-- Modelled from the spec: `CurrencyWhitelist::add_currency` (currency.rs
is not among the sources); admin-only mutation of the whitelist. -/
def addCurrency (admin currency : Nat) (s : ContractState) : CallResult Unit :=
  match s.adminA with
  | none => (.error .NotAdmin, s)
  | some stored =>
    if admin ≠ stored then (.error .NotAdmin, s)
    else if admin ∉ s.auths then (.error .Unauthorized, s)
    else (.ok (), { s with whitelist := s.whitelist ++ [currency] })

/-- Modelled from the spec: `verification::submit_investor_kyc`
(verification.rs is not among the sources); files a pending verification
request for the investor, rejecting a resubmission while one is pending. -/
def submitInvestorKyc (investor : Nat) (s : ContractState) : CallResult Unit :=
  if investor ∉ s.auths then (.error .Unauthorized, s)
  else
    match getInvestorVerification s investor with
    | some v =>
      if v.status = .Pending then (.error .KYCAlreadyPending, s)
      else
        let verifs := s.investorVerifs.map
          (fun x => if x.investor = investor then { x with status := .Pending } else x)
        (.ok (), { s with investorVerifs := verifs })
    | none =>
      let v : InvestorVerification :=
        { investor, status := .Pending, investmentLimit := 0,
          totalInvestments := 0, successfulInvestments := 0, totalAmount := 0 }
      (.ok (), { s with investorVerifs := s.investorVerifs ++ [v] })

/-- `verify_investor` (lib.rs) with the verification-module body modelled
from the spec: admin-only; marks the investor's verification record
`Verified` and sets the approved investment limit. -/
def verifyInvestor (investor : Nat) (investmentLimit : Int) (s : ContractState) :
    CallResult Unit :=
  match s.bvAdmin with
  | none => (.error .NotAdmin, s)
  | some admin =>
    if admin ∉ s.auths then (.error .Unauthorized, s)
    else
      match getInvestorVerification s investor with
      | none => (.error .BusinessNotVerified, s)
      | some v =>
        let v2 := { v with status := .Verified, investmentLimit }
        let verifs := s.investorVerifs.map (fun x => if x.investor = investor then v2 else x)
        (.ok (), { s with investorVerifs := verifs })

/-- Modelled from the spec: `defaults::create_dispute` (the dispute engine's
module is not among the sources).  The invoice must exist; a dispute may be
created only once per invoice, and every later attempt fails with the
duplicate error regardless of caller; the reason length must be in [1,500]
and the evidence length in [1,1000]; the creator must be the invoice's
business (the authorized stakeholder exercised by the dispute test suite)
and must have authorized the call; on success the dispute record is stored
and the invoice's dispute status becomes `Disputed`. -/
def createDispute (invoiceId creator : Nat) (reason evidence : String)
    (s : ContractState) : CallResult Unit :=
  match getInvoice s invoiceId with
  | none => (.error .InvoiceNotFound, s)
  | some inv =>
    match getDispute s invoiceId with
    | some _ => (.error .DisputeAlreadyExists, s)
    | none =>
      if reason.length = 0 ∨ reason.length > 500 then (.error .InvalidDisputeReason, s)
      else if evidence.length = 0 ∨ evidence.length > 1000 then
        (.error .InvalidDisputeEvidence, s)
      else if creator ≠ inv.business then (.error .DisputeNotAuthorized, s)
      else if creator ∉ s.auths then (.error .Unauthorized, s)
      else
        let d : Dispute :=
          { invoiceId, createdBy := creator, reason, evidence, status := .Disputed,
            resolution := "", resolvedBy := none, resolvedAt := 0 }
        let s1 := updateInvoiceRecord { inv with disputeStatus := .Disputed } s
        (.ok (), { s1 with disputes := s1.disputes ++ [d] })

/-- Modelled from the spec: `defaults::put_dispute_under_review`; admin-only,
only valid from `Disputed` (a missing dispute gives the not-found error). -/
def putDisputeUnderReview (invoiceId reviewer : Nat) (s : ContractState) : CallResult Unit :=
  match getDispute s invoiceId with
  | none => (.error .DisputeNotFound, s)
  | some d =>
    if some reviewer ≠ s.bvAdmin then (.error .NotAdmin, s)
    else if reviewer ∉ s.auths then (.error .Unauthorized, s)
    else if d.status ≠ .Disputed then (.error .DisputeNotFound, s)
    else
      let ds := s.disputes.map
        (fun x => if x.invoiceId = invoiceId then { x with status := .UnderReview } else x)
      let s1 := { s with disputes := ds }
      match getInvoice s1 invoiceId with
      | some inv => (.ok (), updateInvoiceRecord { inv with disputeStatus := .UnderReview } s1)
      | none => (.ok (), s1)

/-- Modelled from the spec: `defaults::resolve_dispute`; admin-only, only
valid from `UnderReview`, with the resolution length in [1,500] (the length
error observed by the dispute tests); records resolver, resolution and
timestamp. -/
def resolveDispute (invoiceId resolver : Nat) (resolution : String)
    (s : ContractState) : CallResult Unit :=
  match getDispute s invoiceId with
  | none => (.error .DisputeNotFound, s)
  | some d =>
    if some resolver ≠ s.bvAdmin then (.error .NotAdmin, s)
    else if resolver ∉ s.auths then (.error .Unauthorized, s)
    else if d.status ≠ .UnderReview then (.error .DisputeNotUnderReview, s)
    else if resolution.length = 0 ∨ resolution.length > 500 then
      (.error .InvalidDisputeReason, s)
    else
      let d2 := { d with status := .Resolved, resolution, resolvedBy := some resolver,
                         resolvedAt := s.timestamp }
      let ds := s.disputes.map (fun x => if x.invoiceId = invoiceId then d2 else x)
      let s1 := { s with disputes := ds }
      match getInvoice s1 invoiceId with
      | some inv => (.ok (), updateInvoiceRecord { inv with disputeStatus := .Resolved } s1)
      | none => (.ok (), s1)

/-- Modelled from the spec: `defaults::mark_invoice_defaulted` (the module is
not among the sources).  Requires a `Funded` invoice whose due date plus
grace period has elapsed; moves it to `Defaulted` (index membership
included) and marks the investment `Defaulted`. -/
def doMarkInvoiceDefaulted (invoiceId : Nat) (gracePeriod : Option Nat)
    (s : ContractState) : CallResult Unit :=
  let grace := gracePeriod.getD DEFAULT_GRACE_PERIOD
  match getInvoice s invoiceId with
  | none => (.error .InvoiceNotFound, s)
  | some inv =>
    if inv.status ≠ .Funded then (.error .InvalidStatus, s)
    else if s.timestamp < inv.dueDate + grace then (.error .OperationNotAllowed, s)
    else
      let s1 := removeFromStatusIdx .Funded invoiceId s
      let s2 := updateInvoiceRecord (markAsDefaulted inv) s1
      let s3 := addToStatusIdx .Defaulted invoiceId s2
      let s4 :=
        match getInvestmentByInvoice s3 invoiceId with
        | some investment => updateInvestmentRecord { investment with status := .Defaulted } s3
        | none => s3
      (.ok (), s4)

/-- `mark_invoice_defaulted` (lib.rs): runs the default transition and — only
on success — records the failed investment in the investor's analytics,
discarding an analytics failure. -/
def markInvoiceDefaulted (invoiceId : Nat) (gracePeriod : Option Nat)
    (s : ContractState) : CallResult Unit :=
  let investment := getInvestmentByInvoice s invoiceId
  let r := doMarkInvoiceDefaulted invoiceId gracePeriod s
  match r.1 with
  | .ok _ =>
    match investment with
    | some inv =>
      let r2 := updateInvestorAnalytics inv.investor inv.amount false r.2
      (.ok (), r2.2)
    | none => (.ok (), r.2)
  | .error e => (.error e, r.2)

/-- One externally invokable call: each constructor applies one entry point
of the contract to the state after the environment fixed the set of
authorizing addresses for that call; `tick` lets ledger time advance. -/
inductive Step : ContractState → ContractState → Prop where
  | tick (s : ContractState) (t : Nat) (h : s.timestamp ≤ t) :
      Step s { s with timestamp := t }
  | adminStorageInit (s : ContractState) (auths : List Nat) (admin : Nat) :
      Step s (adminStorageInit admin { s with auths := auths }).2
  | setAdmin (s : ContractState) (auths : List Nat) (admin : Nat) :
      Step s (setAdmin admin { s with auths := auths }).2
  | addCurrency (s : ContractState) (auths : List Nat) (admin currency : Nat) :
      Step s (addCurrency admin currency { s with auths := auths }).2
  | submitInvestorKyc (s : ContractState) (auths : List Nat) (investor : Nat) :
      Step s (submitInvestorKyc investor { s with auths := auths }).2
  | verifyInvestor (s : ContractState) (auths : List Nat) (investor : Nat) (limit : Int) :
      Step s (verifyInvestor investor limit { s with auths := auths }).2
  | storeInvoice (s : ContractState) (auths : List Nat) (business : Nat) (amount : Int)
      (currency dueDate : Nat) (description : String) :
      Step s (storeInvoice business amount currency dueDate description
        { s with auths := auths }).2
  | verifyInvoice (s : ContractState) (auths : List Nat) (invoiceId : Nat) :
      Step s (verifyInvoice invoiceId { s with auths := auths }).2
  | cancelInvoice (s : ContractState) (auths : List Nat) (invoiceId : Nat) :
      Step s (cancelInvoice invoiceId { s with auths := auths }).2
  | updateInvoiceStatus (s : ContractState) (auths : List Nat) (invoiceId : Nat)
      (newStatus : InvoiceStatus) :
      Step s (updateInvoiceStatus invoiceId newStatus { s with auths := auths }).2
  | placeBid (s : ContractState) (auths : List Nat) (investor invoiceId : Nat)
      (bidAmount expectedReturn : Int) :
      Step s (placeBid investor invoiceId bidAmount expectedReturn
        { s with auths := auths }).2
  | withdrawBid (s : ContractState) (auths : List Nat) (bidId : Nat) :
      Step s (withdrawBid bidId { s with auths := auths }).2
  | cleanupExpiredBids (s : ContractState) (auths : List Nat) (invoiceId : Nat) :
      Step s (cleanupExpiredBids invoiceId { s with auths := auths })
  | acceptBid (s : ContractState) (auths : List Nat) (invoiceId bidId : Nat) :
      Step s (acceptBid invoiceId bidId { s with auths := auths }).2
  | acceptBidAndFund (s : ContractState) (auths : List Nat) (invoiceId bidId : Nat) :
      Step s (acceptBidAndFund invoiceId bidId { s with auths := auths }).2
  | addInvestmentInsurance (s : ContractState) (auths : List Nat)
      (investmentId provider pct : Nat) :
      Step s (addInvestmentInsurance investmentId provider pct { s with auths := auths }).2
  | settleInvoice (s : ContractState) (auths : List Nat) (invoiceId : Nat) (payment : Int) :
      Step s (settleInvoice invoiceId payment { s with auths := auths }).2
  | processPartialPayment (s : ContractState) (auths : List Nat) (invoiceId : Nat)
      (payment : Int) :
      Step s (processPartialPayment invoiceId payment { s with auths := auths }).2
  | markInvoiceDefaulted (s : ContractState) (auths : List Nat) (invoiceId : Nat)
      (grace : Option Nat) :
      Step s (markInvoiceDefaulted invoiceId grace { s with auths := auths }).2
  | releaseEscrowFunds (s : ContractState) (auths : List Nat) (invoiceId : Nat) :
      Step s (releaseEscrowFunds invoiceId { s with auths := auths }).2
  | refundEscrowFunds (s : ContractState) (auths : List Nat) (invoiceId caller : Nat) :
      Step s (refundEscrowFunds invoiceId caller { s with auths := auths }).2
  | createDispute (s : ContractState) (auths : List Nat) (invoiceId creator : Nat)
      (reason evidence : String) :
      Step s (createDispute invoiceId creator reason evidence { s with auths := auths }).2
  | putDisputeUnderReview (s : ContractState) (auths : List Nat) (invoiceId reviewer : Nat) :
      Step s (putDisputeUnderReview invoiceId reviewer { s with auths := auths }).2
  | resolveDispute (s : ContractState) (auths : List Nat) (invoiceId resolver : Nat)
      (resolution : String) :
      Step s (resolveDispute invoiceId resolver resolution { s with auths := auths }).2

/-- States reachable from deployment by any sequence of external calls. -/
def Reachable (s : ContractState) : Prop :=
  Relation.ReflTransGen Step initState s

/-- Number of `Accepted` bids stored for one invoice. -/
def countAccepted (bids : List Bid) (invoiceId : Nat) : Nat :=
  (bids.filter (fun b => b.invoiceId = invoiceId ∧ b.status = .Accepted)).length

lemma find?_comm_map {α : Type} (l : List α) (f : α → α) (p : α → Bool)
    (hf : ∀ a, p (f a) = p a) : (l.map f).find? p = (l.find? p).map f := by
  rw [List.find?_map]
  rw [show (p ∘ f) = p from funext hf]

lemma find?_append_none {α : Type} (l1 l2 : List α) (p : α → Bool)
    (h : l1.find? p = none) : (l1 ++ l2).find? p = l2.find? p := by
  rw [List.find?_append, h, Option.none_or]

lemma getBid_updateBidRecord (s : ContractState) (b : Bid) (bidId : Nat) :
    getBid (updateBidRecord b s) bidId =
      (getBid s bidId).map (fun x => if x.bidId = b.bidId then b else x) := by
  unfold getBid updateBidRecord
  exact find?_comm_map s.bids _ _ (fun a => by by_cases h : a.bidId = b.bidId <;> simp [h])

lemma getInvoice_updateInvoiceRecord (s : ContractState) (inv : Invoice) (invoiceId : Nat)
    (hid : inv.id = invoiceId) :
    getInvoice (updateInvoiceRecord inv s) invoiceId =
      (getInvoice s invoiceId).map (fun x => if x.id = inv.id then inv else x) := by
  unfold getInvoice updateInvoiceRecord
  exact find?_comm_map s.invoices _ _
    (fun a => by by_cases h : a.id = inv.id <;> simp [h, hid, hid ▸ h])

lemma getInvestment_updateInvestmentRecord (s : ContractState) (inv : Investment) (id0 : Nat) :
    getInvestment (updateInvestmentRecord inv s) id0 =
      (getInvestment s id0).map (fun x => if x.investmentId = inv.investmentId then inv else x) := by
  unfold getInvestment updateInvestmentRecord
  exact find?_comm_map s.investments _ _
    (fun a => by by_cases h : a.investmentId = inv.investmentId <;> simp [h])

/-- A placed bid whose expiration timestamp has already passed. -/
def bidExpiredPlaced : Bid :=
  { bidId := 1, invoiceId := 0, investor := 3, bidAmount := 800, expectedReturn := 50,
    timestamp := 0, status := .Placed, expirationTimestamp := 5 }

/-- State holding only the expired placed bid, at ledger time 100, with the
bid's investor authorizing. -/
def stWithdraw : ContractState :=
  { initState with bids := [bidExpiredPlaced], auths := [3], timestamp := 100 }

/-- C9: `withdraw_bid` performs no expiration sweep: any stored `Placed`
bid is withdrawn by its authorizing investor — its status becomes
`Withdrawn` — with no expiration check, so this holds even when the bid's
expiration timestamp has already passed. -/
theorem withdraw_bid_ignores_expiration (s : ContractState) (bidId : Nat) (bid : Bid)
    (hget : getBid s bidId = some bid)
    (hplaced : bid.status = .Placed)
    (hauth : bid.investor ∈ s.auths) :
    withdrawBid bidId s = (.ok (), updateBidRecord { bid with status := .Withdrawn } s) ∧
      getBid (withdrawBid bidId s).2 bidId = some { bid with status := .Withdrawn } := by
  have heq : withdrawBid bidId s =
      (.ok (), updateBidRecord { bid with status := .Withdrawn } s) := by
    unfold withdrawBid
    simp only [hget]
    rw [if_neg (by simp [hauth]), if_neg (by simp [hplaced])]
  refine ⟨heq, ?_⟩
  rw [heq]
  rw [getBid_updateBidRecord, hget]
  simp

/-- Witness for C9 at a concrete expired bid: the bid's expiration (5) lies
before the ledger time (100), yet withdrawal succeeds and the stored status
becomes `Withdrawn`, not `Expired`. -/
theorem withdraw_bid_ignores_expiration_witness :
    bidExpiredPlaced.expirationTimestamp < stWithdraw.timestamp ∧
      getBid (withdrawBid 1 stWithdraw).2 1 =
        some { bidExpiredPlaced with status := .Withdrawn } := by
  exact ⟨by decide, (withdraw_bid_ignores_expiration stWithdraw 1 bidExpiredPlaced
    (by decide) (by decide) (by decide)).2⟩

/-- A funded invoice (id 0, business 4, face amount 1000, funded at 800 by
investor 3). -/
def invFunded : Invoice :=
  { id := 0, business := 4, amount := 1000, currency := 9, dueDate := 100,
    description := "D", status := .Funded, disputeStatus := .NoDispute,
    investor := some 3, fundedAmount := 800, fundedAt := 10, totalPaid := 0 }

/-- Concrete state for the cancel-invoice counterexample: the funded invoice
is a member of the `Funded` status index and its business authorizes. -/
def stCancelFunded : ContractState :=
  { initState with
    invoices := [invFunded], fundedIdx := [0], auths := [4],
    timestamp := 10, nextId := 5 }

/-- C5: `cancel_invoice` on a `Funded` invoice is rejected with
`InvalidStatus`, yet the call has already removed the invoice from the
`Funded` status index — the rejected call does not leave all stored
entities as they were, because the index removal runs before the
cancellability validation. -/
theorem cancel_invoice_mutates_before_validation :
    (cancelInvoice 0 stCancelFunded).1 = .error .InvalidStatus ∧
      stCancelFunded.fundedIdx = [0] ∧
      (cancelInvoice 0 stCancelFunded).2.fundedIdx = [] ∧
      (cancelInvoice 0 stCancelFunded).2 ≠ stCancelFunded := by
  decide

/-- A placed, unexpired bid of 800 by investor 3 on invoice 0. -/
def bidPlaced : Bid :=
  { bidId := 1, invoiceId := 0, investor := 3, bidAmount := 800, expectedReturn := 50,
    timestamp := 10, status := .Placed, expirationTimestamp := 700000 }

/-- The escrow held for invoice 0 over the funded amount 800. -/
def escrowFunded : Escrow :=
  { escrowId := 2, invoiceId := 0, investor := 3, business := 4, amount := 800,
    currency := 9, status := .Funded }

/-- Concrete state for the reentrancy counterexample: the payment guard is
already held (as inside the body of any guarded money-moving entry point);
invoice 0 is `Funded` with nothing paid, its escrow held, bid 1 `Placed`. -/
def stGuardHeld : ContractState :=
  { initState with
    invoices := [invFunded], bids := [bidPlaced],
    escrows := [escrowFunded], fundedIdx := [0], auths := [3, 4],
    timestamp := 10, nextId := 5, paymentGuard := true }

/-- C3: with the payment guard held, every guarded money-moving entry point
(bid acceptance, settlement, escrow release and refund) fails immediately
with the reentrancy error — but `process_partial_payment` is not wrapped in
the guard: the same nested call goes through and mutates the invoice's
outstanding balance. -/
theorem process_partial_payment_not_guarded :
    (acceptBid 0 1 stGuardHeld).1 = .error .OperationNotAllowed ∧
      (acceptBidAndFund 0 1 stGuardHeld).1 = .error .OperationNotAllowed ∧
      (settleInvoice 0 1000 stGuardHeld).1 = .error .OperationNotAllowed ∧
      (releaseEscrowFunds 0 stGuardHeld).1 = .error .OperationNotAllowed ∧
      (refundEscrowFunds 0 4 stGuardHeld).1 = .error .OperationNotAllowed ∧
      (processPartialPayment 0 100 stGuardHeld).1 = .ok () ∧
      (getInvoice (processPartialPayment 0 100 stGuardHeld).2 0).map Invoice.totalPaid =
        some 100 := by
  decide

/-- A pending invoice owned by business 4, used by the dispute witness. -/
def invPendingD : Invoice :=
  { id := 0, business := 4, amount := 1000, currency := 9, dueDate := 100,
    description := "D", status := .Pending, disputeStatus := .NoDispute,
    investor := none, fundedAmount := 0, fundedAt := 0, totalPaid := 0 }

/-- Concrete dispute-witness state: the pending invoice, no dispute yet, the
business authorizing. -/
def stDispute : ContractState :=
  { initState with
    invoices := [invPendingD], pendingIdx := [0], auths := [4],
    timestamp := 10, nextId := 5 }

lemma getInvoice_id_eq {s : ContractState} {invoiceId : Nat} {inv : Invoice}
    (h : getInvoice s invoiceId = some inv) : inv.id = invoiceId := by
  have := List.find?_some h
  simpa using this

lemma getBid_id_eq {s : ContractState} {bidId : Nat} {bid : Bid}
    (h : getBid s bidId = some bid) : bid.bidId = bidId := by
  have := List.find?_some h
  simpa using this

/-- C7: the first `create_dispute` on an invoice — by the invoice's business
with a reason of length in [1,500] and evidence of length in [1,1000] —
succeeds, stores the dispute and sets the invoice's dispute status to
`Disputed`; afterwards every further `create_dispute` on the same invoice,
by any caller with any reason and evidence, fails with
`DisputeAlreadyExists` and changes nothing, so the stored dispute stays as
created. -/
theorem create_dispute_exclusive (s : ContractState) (invoiceId : Nat) (inv : Invoice)
    (reason evidence : String)
    (hinv : getInvoice s invoiceId = some inv)
    (hnod : getDispute s invoiceId = none)
    (hauth : inv.business ∈ s.auths)
    (hr1 : 1 ≤ reason.length) (hr2 : reason.length ≤ 500)
    (he1 : 1 ≤ evidence.length) (he2 : evidence.length ≤ 1000) :
    ∃ s2 : ContractState,
      createDispute invoiceId inv.business reason evidence s = (.ok (), s2) ∧
      getDispute s2 invoiceId = some
        { invoiceId, createdBy := inv.business, reason, evidence, status := .Disputed,
          resolution := "", resolvedBy := none, resolvedAt := 0 } ∧
      getInvoice s2 invoiceId = some { inv with disputeStatus := .Disputed } ∧
      ∀ creator2 : Nat, ∀ reason2 evidence2 : String,
        createDispute invoiceId creator2 reason2 evidence2 s2 =
          (.error .DisputeAlreadyExists, s2) := by
  have hid : inv.id = invoiceId := getInvoice_id_eq hinv
  set d : Dispute :=
    { invoiceId, createdBy := inv.business, reason, evidence, status := .Disputed,
      resolution := "", resolvedBy := none, resolvedAt := 0 } with hd
  set inv2 : Invoice := { inv with disputeStatus := .Disputed } with hinv2
  set s2 : ContractState :=
    { updateInvoiceRecord inv2 s with disputes := s.disputes ++ [d] } with hs2
  have hcall : createDispute invoiceId inv.business reason evidence s = (.ok (), s2) := by
    unfold createDispute
    simp only [hinv, hnod]
    rw [if_neg (by rintro (h | h) <;> omega), if_neg (by rintro (h | h) <;> omega),
      if_neg (by simp), if_neg (by simp [hauth])]
    rfl
  have hgetd : getDispute s2 invoiceId = some d := by
    show (s.disputes ++ [d]).find? (fun x => x.invoiceId = invoiceId) = some d
    rw [find?_append_none s.disputes [d] _ hnod]
    simp [hd]
  have hgeti : getInvoice s2 invoiceId = some inv2 := by
    show getInvoice (updateInvoiceRecord inv2 s) invoiceId = some inv2
    rw [getInvoice_updateInvoiceRecord s inv2 invoiceId (by simp [hinv2, hid]), hinv]
    simp [hinv2]
  refine ⟨s2, hcall, hgetd, hgeti, ?_⟩
  intro creator2 reason2 evidence2
  unfold createDispute
  simp only [hgeti, hgetd]

/-- Witness for C7: on a concrete state with one pending invoice and no
dispute, the first creation succeeds and stores the dispute, and a second
attempt by a different caller fails with the duplicate error. -/
theorem create_dispute_exclusive_witness :
    ∃ s2 : ContractState,
      createDispute 0 4 "r" "e" stDispute = (.ok (), s2) ∧
      (getDispute s2 0).map Dispute.status = some .Disputed ∧
      createDispute 0 99 "other" "proof" s2 = (.error .DisputeAlreadyExists, s2) := by
  obtain ⟨s2, hcall, hgetd, hgeti, hdup⟩ :=
    create_dispute_exclusive stDispute 0 invPendingD "r" "e"
      (by decide) (by decide) (by decide) (by decide) (by decide) (by decide) (by decide)
  exact ⟨s2, hcall, by rw [hgetd]; rfl, hdup 99 "other" "proof"⟩

/-- An active investment of amount 500 held by investor 3, whose insurance
premium at 1% coverage exercises the minimum-premium floor. -/
def investSmall : Investment :=
  { investmentId := 0, invoiceId := 1, investor := 3, amount := 500, fundedAt := 0,
    status := .Active, insurance := [] }

/-- Concrete insurance counterexample state. -/
def stInsureSmall : ContractState :=
  { initState with
    investments := [investSmall], auths := [3], nextId := 2 }

/-- C8 counterexample: for an `Active` investment of amount 500 and coverage
percentage 1, the stored entry has coverage 5 and premium 1, although
`(coverage * rate_bps) / 10000 = (5 * 200) / 10000 = 0`; the claim, which
demands `premium_amount = (coverage_amount * rate_bps) / 10000` and failure
with `InvalidAmount` whenever that quotient is not positive, is therefore
false on the code (matching `test_premium_and_coverage_math_exact`, which
expects exactly premium 1 here). -/
theorem add_insurance_floor_counterexample :
    (addInvestmentInsurance 0 7 1 stInsureSmall).1 = .ok () ∧
      (getInvestment (addInvestmentInsurance 0 7 1 stInsureSmall).2 0).map
        Investment.insurance =
        some [{ provider := 7, coveragePercentage := 1, coverageAmount := 5,
                premiumAmount := 1, active := true }] ∧
      (5 * DEFAULT_INSURANCE_PREMIUM_BPS) / 10000 = (0 : Int) ∧
      (1 : Int) ≠ (5 * DEFAULT_INSURANCE_PREMIUM_BPS) / 10000 := by
  decide

/-- C8 as amended: on an `Active` investment with no active insurance entry,
authorized by its investor, with coverage percentage in (0,100]: the
coverage amount is `satMul(amount, pct) / 100`; the premium is the
saturating quotient `satMul(coverage, rate_bps) / 10000` with a minimum of
one unit charged whenever the coverage is positive; when the computed
premium is not strictly positive (amount or coverage not positive) the call
fails with `InvalidAmount` and stores nothing, and otherwise the entry with
exactly these amounts is stored. -/
theorem add_insurance_amended (s : ContractState) (investmentId provider pct : Nat)
    (inv : Investment)
    (hget : getInvestment s investmentId = some inv)
    (hauth : inv.investor ∈ s.auths)
    (hactive : inv.status = .Active)
    (hnoact : inv.insurance.any (fun c => c.active) = false)
    (hpct1 : 0 < pct) (hpct2 : pct ≤ 100) :
    (calculatePremium inv.amount pct ≤ 0 →
      addInvestmentInsurance investmentId provider pct s = (.error .InvalidAmount, s)) ∧
    (0 < calculatePremium inv.amount pct →
      addInvestmentInsurance investmentId provider pct s =
        (.ok (), updateInvestmentRecord
          { inv with insurance := inv.insurance ++
              [{ provider, coveragePercentage := pct,
                 coverageAmount := satMulI128 inv.amount (Int.ofNat pct) / 100,
                 premiumAmount := calculatePremium inv.amount pct, active := true }] } s) ∧
      0 < satMulI128 inv.amount (Int.ofNat pct) / 100 ∧
      calculatePremium inv.amount pct =
        max (satMulI128 (satMulI128 inv.amount (Int.ofNat pct) / 100)
          DEFAULT_INSURANCE_PREMIUM_BPS / 10000) 1) := by
  constructor
  · intro hprem
    unfold addInvestmentInsurance
    simp only [hget]
    rw [if_neg (by simp [hauth]), if_neg (by simp [hactive]), if_pos hprem]
  · intro hprem
    have hnz : ¬(inv.amount ≤ 0 ∨ pct = 0) := by
      intro h
      rw [calculatePremium, if_pos h] at hprem
      omega
    have hcov : ¬(satMulI128 inv.amount (Int.ofNat pct) / 100 ≤ 0) := by
      intro h
      rw [calculatePremium, if_neg hnz] at hprem
      simp only [if_pos h] at hprem
      omega
    have hform : calculatePremium inv.amount pct =
        max (satMulI128 (satMulI128 inv.amount (Int.ofNat pct) / 100)
          DEFAULT_INSURANCE_PREMIUM_BPS / 10000) 1 := by
      rw [calculatePremium, if_neg hnz]
      simp only [if_neg hcov]
    have hcall : addInvestmentInsurance investmentId provider pct s =
        (.ok (), updateInvestmentRecord
          { inv with insurance := inv.insurance ++
              [{ provider, coveragePercentage := pct,
                 coverageAmount := satMulI128 inv.amount (Int.ofNat pct) / 100,
                 premiumAmount := calculatePremium inv.amount pct, active := true }] } s) := by
      unfold addInvestmentInsurance
      simp only [hget]
      rw [if_neg (by simp [hauth]), if_neg (by simp [hactive]), if_neg (by omega)]
      unfold addInsurance
      rw [if_neg (by omega), if_neg (by omega), if_neg (by simp [hnoact])]
    exact ⟨hcall, by omega, hform⟩

/-- An active investment of amount 10000 (the exact-math test input). -/
def invest10k : Investment :=
  { investmentId := 0, invoiceId := 1, investor := 3, amount := 10000, fundedAt := 0,
    status := .Active, insurance := [] }

/-- Concrete insurance witness state. -/
def stInsure10k : ContractState :=
  { initState with
    investments := [invest10k], auths := [3], nextId := 2 }

/-- Witness for the amended C8 at the test suite's exact-math input: an
active investment of 10000 insured at 80% stores coverage 8000 and premium
160. -/
theorem add_insurance_amended_witness :
    addInvestmentInsurance 0 7 80 stInsure10k =
      (.ok (), updateInvestmentRecord
        { invest10k with insurance :=
            [{ provider := 7, coveragePercentage := 80, coverageAmount := 8000,
               premiumAmount := 160, active := true }] } stInsure10k) ∧
      (getInvestment (addInvestmentInsurance 0 7 80 stInsure10k).2 0).map
        Investment.insurance =
        some [{ provider := 7, coveragePercentage := 80, coverageAmount := 8000,
                premiumAmount := 160, active := true }] := by
  have h := (add_insurance_amended stInsure10k 0 7 80 invest10k (by decide) (by decide)
    (by decide) (by decide) (by decide) (by decide)).2 (by decide)
  refine ⟨?_, ?_⟩
  · rw [h.1]
    decide
  · rw [h.1]
    decide

lemma doSettleInvoice_verifs (invoiceId : Nat) (payment : Int) (s : ContractState) :
    (doSettleInvoice invoiceId payment s).2.investorVerifs = s.investorVerifs := by
  unfold doSettleInvoice
  cases h : getInvoice s invoiceId with
  | none => rfl
  | some inv =>
    dsimp only
    by_cases h1 : inv.status ≠ .Funded
    · rw [if_pos h1]
    · rw [if_neg h1]
      by_cases h2 : payment < inv.amount - inv.totalPaid
      · rw [if_pos h2]
      · rw [if_neg h2]
        dsimp only
        split <;> rfl

/-- C10: `settle_invoice` touches the investor's analytics only when the
underlying guarded settlement succeeds (the settlement itself never touches
them), and on success it updates them classifying the investment as
successful exactly when the payment amount is at least the stored
investment's amount — the funded bid amount, not the invoice's face
amount — while the settlement result is `Ok` regardless of whether the
analytics update itself succeeds or fails. -/
theorem settle_invoice_analytics (s : ContractState) (invoiceId : Nat) (payment : Int)
    (inv : Investment)
    (hinv : getInvestmentByInvoice s invoiceId = some inv) :
    (withPaymentGuard (doSettleInvoice invoiceId payment) s).2.investorVerifs =
        s.investorVerifs ∧
      (∀ e, (withPaymentGuard (doSettleInvoice invoiceId payment) s).1 = .error e →
        settleInvoice invoiceId payment s =
          (.error e, (withPaymentGuard (doSettleInvoice invoiceId payment) s).2)) ∧
      ((withPaymentGuard (doSettleInvoice invoiceId payment) s).1 = .ok () →
        settleInvoice invoiceId payment s =
          (.ok (), (updateInvestorAnalytics inv.investor inv.amount
            (decide (payment ≥ inv.amount))
            (withPaymentGuard (doSettleInvoice invoiceId payment) s).2).2)) := by
  refine ⟨?_, ?_, ?_⟩
  · unfold withPaymentGuard
    by_cases g : s.paymentGuard = true
    · rw [if_pos g]
    · rw [if_neg g]
      exact doSettleInvoice_verifs invoiceId payment { s with paymentGuard := true }
  · intro e herr
    unfold settleInvoice
    simp only [herr]
  · intro hok
    unfold settleInvoice
    simp only [hok, hinv]

/-- The investment funded over invoice 0 at 800 by investor 3. -/
def investSettle : Investment :=
  { investmentId := 4, invoiceId := 0, investor := 3, amount := 800, fundedAt := 10,
    status := .Active, insurance := [] }

/-- Witness state for C10: invoice 0 is `Funded` with face amount 1000 and
300 already paid (outstanding 700); the investment over it is 800 by
investor 3, who has no verification record, so the analytics update fails. -/
def stSettle : ContractState :=
  { initState with
    invoices := [{ invFunded with totalPaid := 300 }],
    investments := [investSettle],
    escrows := [escrowFunded], fundedIdx := [0], timestamp := 10, nextId := 5 }

/-- Witness for C10: a payment of 800 is below the invoice's face amount
1000 yet at least the investment amount 800, so the settlement succeeds and
is classified successful by the investment amount; the analytics update
fails (no verification record) and the settlement still returns `Ok` with
the analytics list unchanged. -/
theorem settle_invoice_analytics_witness :
    (settleInvoice 0 800 stSettle).1 = .ok () ∧
      (800 : Int) < 1000 ∧ decide ((800 : Int) ≥ 800) = true ∧
      (settleInvoice 0 800 stSettle).2.investorVerifs = [] := by
  have h := settle_invoice_analytics stSettle 0 800 investSettle (by decide)
  have hok : (withPaymentGuard (doSettleInvoice 0 800) stSettle).1 = .ok () := by decide
  have hcall := h.2.2 hok
  refine ⟨by rw [hcall], by decide, by decide, ?_⟩
  rw [hcall]
  decide

lemma getEscrow_invoiceId_eq {s : ContractState} {invoiceId : Nat} {e : Escrow}
    (h : getEscrowByInvoice s invoiceId = some e) : e.invoiceId = invoiceId := by
  have := List.find?_some h
  simpa using this

/-- C6: `verify_invoice` is admin-only and demands status `Pending`: with no
authorization from the stored admin it fails, and on a non-`Pending`
invoice it fails with `InvalidStatus`, both without changing state.  On a
`Pending` invoice it succeeds, the invoice becomes `Verified` and moves
from the `Pending` to the `Verified` index; the escrow store is untouched,
and whenever the resulting invoice (re)confirmed by the call were `Funded`,
the invoice's escrow would be `Released` — the accompanying general fact
being that `release_escrow_funds` on a held `Funded` escrow does release
it. -/
theorem verify_invoice_c6 (s : ContractState) (invoiceId : Nat) (admin : Nat) (inv : Invoice)
    (hadmin : s.adminA = some admin)
    (hinv : getInvoice s invoiceId = some inv) :
    (admin ∉ s.auths → verifyInvoice invoiceId s = (.error .Unauthorized, s)) ∧
      (admin ∈ s.auths → inv.status ≠ .Pending →
        verifyInvoice invoiceId s = (.error .InvalidStatus, s)) ∧
      (admin ∈ s.auths → inv.status = .Pending →
        ∃ s3 : ContractState,
          verifyInvoice invoiceId s = (.ok (), s3) ∧
          getInvoice s3 invoiceId = some { inv with status := .Verified } ∧
          s3.pendingIdx = s.pendingIdx.erase invoiceId ∧
          s3.verifiedIdx = s.verifiedIdx ++ [invoiceId] ∧
          s3.escrows = s.escrows ∧
          (∀ inv2 : Invoice, getInvoice s3 invoiceId = some inv2 → inv2.status = .Funded →
            (getEscrowByInvoice s3 invoiceId).map Escrow.status = some .Released)) ∧
      (∀ s2 : ContractState, ∀ e : Escrow, s2.paymentGuard = false →
        getEscrowByInvoice s2 invoiceId = some e → e.status = .Funded →
        releaseEscrowFunds invoiceId s2 =
          (.ok (), updateEscrowRecord { e with status := .Released }
            { s2 with paymentGuard := false })) := by
  have hid : inv.id = invoiceId := getInvoice_id_eq hinv
  refine ⟨?_, ?_, ?_, ?_⟩
  · intro hnoauth
    unfold verifyInvoice
    rw [hadmin]
    dsimp only
    rw [if_pos hnoauth]
  · intro hauth hnp
    unfold verifyInvoice
    rw [hadmin]
    dsimp only
    rw [if_neg (by simp [hauth])]
    simp only [hinv]
    rw [if_pos hnp]
  · intro hauth hp
    unfold verifyInvoice
    rw [hadmin]
    dsimp only
    rw [if_neg (by simp [hauth])]
    simp only [hinv]
    rw [if_neg (by simp [hp])]
    rw [if_neg (by simp [verifyRecord])]
    refine ⟨_, rfl, ?_, rfl, rfl, rfl, ?_⟩
    · show getInvoice (updateInvoiceRecord (verifyRecord inv)
        (removeFromStatusIdx .Pending invoiceId s)) invoiceId = _
      rw [getInvoice_updateInvoiceRecord _ _ _ (by simp [verifyRecord, hid])]
      show (getInvoice s invoiceId).map _ = _
      rw [hinv]
      simp [verifyRecord]
    · intro inv2 hget2 hfunded
      exfalso
      rw [show getInvoice (addToStatusIdx .Verified invoiceId (updateInvoiceRecord
          (verifyRecord inv) (removeFromStatusIdx .Pending invoiceId s))) invoiceId =
          getInvoice (updateInvoiceRecord (verifyRecord inv)
          (removeFromStatusIdx .Pending invoiceId s)) invoiceId from rfl] at hget2
      rw [getInvoice_updateInvoiceRecord _ _ _ (by simp [verifyRecord, hid])] at hget2
      have : getInvoice s invoiceId = some inv := hinv
      rw [show getInvoice (removeFromStatusIdx .Pending invoiceId s) invoiceId =
          getInvoice s invoiceId from rfl, hinv] at hget2
      simp [verifyRecord] at hget2
      rw [← hget2] at hfunded
      simp at hfunded
  · intro s2 e hguard hesc hfund
    unfold releaseEscrowFunds withPaymentGuard
    rw [if_neg (by simp [hguard])]
    have hesc2 : getEscrowByInvoice { s2 with paymentGuard := true } invoiceId = some e := hesc
    simp only [hesc2]
    unfold releaseEscrow
    simp only [hesc2]
    rw [if_neg (by simp [hfund])]
    rfl

/-- Witness state for C6: a pending invoice with the storage admin (address
1) authorizing. -/
def stVerify : ContractState :=
  { initState with
    invoices := [invPendingD], pendingIdx := [0], adminA := some 1, auths := [1],
    timestamp := 10, nextId := 5 }

/-- Witness for C6: verifying the concrete pending invoice succeeds, the
invoice becomes `Verified` and joins the `Verified` index. -/
theorem verify_invoice_c6_witness :
    ∃ s3 : ContractState, verifyInvoice 0 stVerify = (.ok (), s3) ∧
      (getInvoice s3 0).map Invoice.status = some .Verified ∧
      s3.verifiedIdx = [0] := by
  obtain ⟨s3, hcall, hget, hpend, hver, hesc, hrel⟩ :=
    (verify_invoice_c6 stVerify 0 1 invPendingD (by decide) (by decide)).2.2.1
      (by decide) (by decide)
  exact ⟨s3, hcall, by rw [hget]; rfl, by rw [hver]; rfl⟩

lemma getInvoice_cleanup (i j : Nat) (s : ContractState) :
    getInvoice (cleanupExpiredBids i s) j = getInvoice s j := rfl

lemma getEscrow_cleanup (i j : Nat) (s : ContractState) :
    getEscrowByInvoice (cleanupExpiredBids i s) j = getEscrowByInvoice s j := rfl

lemma sweepBid_bidId (i t : Nat) (b : Bid) : (sweepBid i t b).bidId = b.bidId := by
  unfold sweepBid
  split <;> rfl

lemma sweepBid_invoiceId (i t : Nat) (b : Bid) : (sweepBid i t b).invoiceId = b.invoiceId := by
  unfold sweepBid
  split <;> rfl

lemma getBid_cleanup (i b : Nat) (s : ContractState) :
    getBid (cleanupExpiredBids i s) b = (getBid s b).map (sweepBid i s.timestamp) := by
  unfold getBid cleanupExpiredBids
  exact find?_comm_map _ _ _ (fun a => by rw [sweepBid_bidId])

lemma sweepBid_not_expired (i t : Nat) (b : Bid) (h : ¬b.expirationTimestamp < t) :
    sweepBid i t b = b := by
  unfold sweepBid
  rw [if_neg (by tauto)]

lemma sweepBid_status (i t : Nat) (b : Bid) :
    (sweepBid i t b).status = b.status ∨ (sweepBid i t b).status = .Expired := by
  unfold sweepBid
  split <;> simp

lemma sweepBid_not_placed (i t : Nat) (b : Bid) (h : b.status ≠ .Placed) :
    sweepBid i t b = b := by
  unfold sweepBid
  rw [if_neg (by tauto)]

lemma sweepBid_placed_of {i t : Nat} {b : Bid}
    (h : (sweepBid i t b).status = .Placed) : b.status = .Placed := by
  rcases sweepBid_status i t b with h1 | h1
  · rw [h] at h1
    exact h1.symm
  · rw [h] at h1
    cases h1

lemma cleanup_timestamp (i : Nat) (s : ContractState) :
    (cleanupExpiredBids i s).timestamp = s.timestamp := rfl

lemma cleanup_auths (i : Nat) (s : ContractState) :
    (cleanupExpiredBids i s).auths = s.auths := rfl

/-- The escrow record created by a successful bid acceptance. -/
def escNew (s0 : ContractState) (invoice : Invoice) (bid : Bid) : Escrow :=
  { escrowId := s0.nextId, invoiceId := bid.invoiceId, investor := bid.investor,
    business := invoice.business, amount := bid.bidAmount,
    currency := invoice.currency, status := .Funded }

/-- The investment record created by a successful bid acceptance. -/
def invNew (s0 : ContractState) (bid : Bid) : Investment :=
  { investmentId := s0.nextId + 1, invoiceId := bid.invoiceId, investor := bid.investor,
    amount := bid.bidAmount, fundedAt := s0.timestamp, status := .Active,
    insurance := [] }

/-- The state produced by a successful `accept_bid_impl` body called with
`invoiceIdArg`, accepting `bid` on `invoice`: after the two expired-bid
sweeps, the escrow over the bid amount is appended, the bid is marked
`Accepted`, the invoice `Funded`, and the `Active` investment appended. -/
def sAcceptedCore (s0 : ContractState) (invoiceIdArg : Nat) (invoice : Invoice) (bid : Bid) :
    ContractState :=
  let s2 := cleanupExpiredBids bid.invoiceId (cleanupExpiredBids invoiceIdArg s0)
  let s3 := { s2 with
    escrows := s2.escrows ++ [escNew s0 invoice bid],
    nextId := s0.nextId + 1 }
  let s4 := updateBidRecord { bid with status := .Accepted } s3
  let s5 := updateInvoiceRecord
    (markAsFunded invoice bid.investor bid.bidAmount s0.timestamp) s4
  { s5 with
    investments := s5.investments ++ [invNew s0 bid],
    nextId := s0.nextId + 2 }

lemma acceptBidCore_fail (s0 : ContractState) (invoiceId bidId : Nat)
    (invoice : Invoice) (bid : Bid)
    (hinv : getInvoice s0 invoiceId = some invoice)
    (hbid : getBid s0 bidId = some bid)
    (hauth : invoice.business ∈ s0.auths)
    (hfail : ¬(invoice.status = .Verified ∧ bid.status = .Placed)) :
    acceptBidCore invoiceId bidId s0 =
      (.error .InvalidStatus,
        cleanupExpiredBids (sweepBid invoiceId s0.timestamp bid).invoiceId
          (cleanupExpiredBids invoiceId s0)) := by
  unfold acceptBidCore
  try dsimp only
  rw [getInvoice_cleanup, hinv]
  try dsimp only
  rw [getBid_cleanup, hbid]
  simp only [Option.map_some']
  try dsimp only
  rw [getBid_cleanup, getBid_cleanup, hbid]
  simp only [Option.map_some']
  try dsimp only
  rw [if_neg (by simp [cleanup_auths, hauth])]
  rw [if_pos ?side]
  case side =>
    rintro ⟨h1, h2⟩
    exact hfail ⟨h1, sweepBid_placed_of (sweepBid_placed_of h2)⟩

lemma acceptBidCore_fail_getBid (s0 : ContractState) (invoiceId bidId : Nat) (bid : Bid)
    (hbid : getBid s0 bidId = some bid) :
    getBid (cleanupExpiredBids (sweepBid invoiceId s0.timestamp bid).invoiceId
        (cleanupExpiredBids invoiceId s0)) bidId =
      some (sweepBid (sweepBid invoiceId s0.timestamp bid).invoiceId
        (cleanupExpiredBids invoiceId s0).timestamp (sweepBid invoiceId s0.timestamp bid)) := by
  rw [getBid_cleanup, getBid_cleanup, hbid]
  simp only [Option.map_some']

lemma acceptBidCore_ok (s0 : ContractState) (invoiceId bidId : Nat)
    (invoice : Invoice) (bid : Bid)
    (hinv : getInvoice s0 invoiceId = some invoice)
    (hbid : getBid s0 bidId = some bid)
    (hbinv : bid.invoiceId = invoiceId)
    (hauth : invoice.business ∈ s0.auths)
    (hver : invoice.status = .Verified) (hplaced : bid.status = .Placed)
    (hnexp : ¬bid.expirationTimestamp < s0.timestamp)
    (hesc : getEscrowByInvoice s0 invoiceId = none) :
    acceptBidCore invoiceId bidId s0 = (.ok s0.nextId, sAcceptedCore s0 invoiceId invoice bid) := by
  have hsw1 : sweepBid invoiceId s0.timestamp bid = bid :=
    sweepBid_not_expired _ _ _ hnexp
  have hsw2 : sweepBid bid.invoiceId (cleanupExpiredBids invoiceId s0).timestamp bid = bid :=
    sweepBid_not_expired _ _ _ hnexp
  unfold acceptBidCore
  try dsimp only
  rw [getInvoice_cleanup, hinv]
  try dsimp only
  rw [getBid_cleanup, hbid]
  simp only [Option.map_some']
  try dsimp only
  rw [getBid_cleanup, getBid_cleanup, hbid]
  simp only [Option.map_some']
  try dsimp only
  rw [hsw1, hsw2]
  rw [if_neg (by simp [cleanup_auths, hauth])]
  rw [if_neg (by simp [hver, hplaced])]
  have hce : createEscrow bid.invoiceId bid.investor invoice.business bid.bidAmount
      invoice.currency (cleanupExpiredBids bid.invoiceId (cleanupExpiredBids invoiceId s0)) =
      (.ok s0.nextId,
        { cleanupExpiredBids bid.invoiceId (cleanupExpiredBids invoiceId s0) with
          escrows := (cleanupExpiredBids bid.invoiceId
            (cleanupExpiredBids invoiceId s0)).escrows ++ [escNew s0 invoice bid],
          nextId := s0.nextId + 1 }) := by
    unfold createEscrow
    have hesc2 : getEscrowByInvoice s0 bid.invoiceId = none := by
      rw [hbinv]
      exact hesc
    rw [getEscrow_cleanup, getEscrow_cleanup, hesc2]
    rfl
  rw [hce]
  try dsimp only
  rfl

lemma sAcceptedCore_getBid (s0 : ContractState) (invoiceIdArg bidId : Nat)
    (invoice : Invoice) (bid : Bid)
    (hbid : getBid s0 bidId = some bid)
    (hnexp : ¬bid.expirationTimestamp < s0.timestamp) :
    getBid (sAcceptedCore s0 invoiceIdArg invoice bid) bidId =
      some { bid with status := .Accepted } := by
  show ((cleanupExpiredBids bid.invoiceId (cleanupExpiredBids invoiceIdArg s0)).bids.map
    (fun x => if x.bidId = ({ bid with status := BidStatus.Accepted } : Bid).bidId
      then { bid with status := BidStatus.Accepted } else x)).find?
      (fun b => b.bidId = bidId) = _
  rw [find?_comm_map _ _ _ (fun a => by by_cases h : a.bidId = bid.bidId <;> simp [h])]
  have hmid : getBid (cleanupExpiredBids bid.invoiceId (cleanupExpiredBids invoiceIdArg s0))
      bidId = some bid := by
    rw [getBid_cleanup, getBid_cleanup, hbid]
    simp only [Option.map_some']
    rw [sweepBid_not_expired _ _ _ hnexp,
      sweepBid_not_expired bid.invoiceId
        (cleanupExpiredBids invoiceIdArg s0).timestamp bid hnexp]
  rw [show (cleanupExpiredBids bid.invoiceId (cleanupExpiredBids invoiceIdArg s0)).bids.find?
    (fun b => b.bidId = bidId) = some bid from hmid]
  simp

lemma sAcceptedCore_getInvoice (s0 : ContractState) (invoiceIdArg invoiceId : Nat)
    (invoice : Invoice) (bid : Bid)
    (hinv : getInvoice s0 invoiceId = some invoice) :
    getInvoice (sAcceptedCore s0 invoiceIdArg invoice bid) invoiceId =
      some (markAsFunded invoice bid.investor bid.bidAmount s0.timestamp) := by
  have hid : invoice.id = invoiceId := getInvoice_id_eq hinv
  show getInvoice (updateInvoiceRecord
    (markAsFunded invoice bid.investor bid.bidAmount s0.timestamp)
    (updateBidRecord { bid with status := .Accepted } _)) invoiceId = _
  rw [getInvoice_updateInvoiceRecord _ _ _ (by simp [markAsFunded, hid])]
  show (getInvoice s0 invoiceId).map _ = _
  rw [hinv]
  simp [markAsFunded]

lemma sAcceptedCore_getEscrow (s0 : ContractState) (invoiceIdArg invoiceId : Nat)
    (invoice : Invoice) (bid : Bid)
    (hbinv : bid.invoiceId = invoiceId)
    (hesc : getEscrowByInvoice s0 invoiceId = none) :
    getEscrowByInvoice (sAcceptedCore s0 invoiceIdArg invoice bid) invoiceId =
      some (escNew s0 invoice bid) := by
  show (s0.escrows ++ [escNew s0 invoice bid]).find?
    (fun e => e.invoiceId = invoiceId) = _
  rw [find?_append_none _ _ _ hesc]
  simp [escNew, hbinv]

/-- C1: under the business's authorization, for an existing invoice and an
existing bid on it: when the invoice is `Verified`, the bid `Placed` and
unexpired, and no escrow is held yet, `accept_bid` and
`accept_bid_and_fund` perform the whole funding unit — the bid becomes
`Accepted`, the invoice becomes `Funded` over the bid amount, an escrow
over exactly the bid amount is created with status `Funded` (its id
returned by `accept_bid_and_fund`), and an `Active` investment over
exactly the bid amount is appended; when instead the invoice is not
`Verified` or the bid is not `Placed`, both calls fail with
`InvalidStatus` and none of the funding changes occur: escrows,
investments and the invoice are untouched and the targeted bid is never
`Accepted` (at most lazily `Expired` by the sweep). -/
theorem accept_bid_funding_unit (s : ContractState) (invoiceId bidId : Nat)
    (invoice : Invoice) (bid : Bid)
    (hguard : s.paymentGuard = false)
    (hinv : getInvoice s invoiceId = some invoice)
    (hbid : getBid s bidId = some bid)
    (hbinv : bid.invoiceId = invoiceId)
    (hauth : invoice.business ∈ s.auths) :
    (¬(invoice.status = .Verified ∧ bid.status = .Placed) →
      (acceptBid invoiceId bidId s).1 = .error .InvalidStatus ∧
      (acceptBidAndFund invoiceId bidId s).1 = .error .InvalidStatus ∧
      (acceptBid invoiceId bidId s).2.escrows = s.escrows ∧
      (acceptBid invoiceId bidId s).2.investments = s.investments ∧
      getInvoice (acceptBid invoiceId bidId s).2 invoiceId = some invoice ∧
      ((getBid (acceptBid invoiceId bidId s).2 bidId).map Bid.status = some bid.status ∨
        (getBid (acceptBid invoiceId bidId s).2 bidId).map Bid.status = some .Expired)) ∧
    (invoice.status = .Verified → bid.status = .Placed →
      ¬bid.expirationTimestamp < s.timestamp →
      getEscrowByInvoice s invoiceId = none →
      ∃ s6 : ContractState,
        acceptBid invoiceId bidId s = (.ok (), s6) ∧
        acceptBidAndFund invoiceId bidId s = (.ok s.nextId, s6) ∧
        getBid s6 bidId = some { bid with status := .Accepted } ∧
        getInvoice s6 invoiceId =
          some (markAsFunded invoice bid.investor bid.bidAmount s.timestamp) ∧
        (getInvoice s6 invoiceId).map Invoice.status = some .Funded ∧
        s6.escrows = s.escrows ++ [escNew s invoice bid] ∧
        getEscrowByInvoice s6 invoiceId = some (escNew s invoice bid) ∧
        (escNew s invoice bid).amount = bid.bidAmount ∧
        (escNew s invoice bid).status = .Funded ∧
        (escNew s invoice bid).invoiceId = invoiceId ∧
        s6.investments = s.investments ++ [invNew s bid] ∧
        (invNew s bid).amount = bid.bidAmount ∧
        (invNew s bid).status = .Active ∧
        (invNew s bid).invoiceId = invoiceId) := by
  have hw : ∀ (α : Type) (body : ContractState → CallResult α),
      withPaymentGuard body s =
        ((body { s with paymentGuard := true }).1,
          { (body { s with paymentGuard := true }).2 with paymentGuard := false }) := by
    intro α body
    unfold withPaymentGuard
    rw [if_neg (by simp [hguard])]
  constructor
  · intro hfail
    have hcore := acceptBidCore_fail { s with paymentGuard := true } invoiceId bidId
      invoice bid hinv hbid hauth hfail
    have hab : acceptBid invoiceId bidId s = (.error .InvalidStatus,
        { cleanupExpiredBids
            (sweepBid invoiceId ({ s with paymentGuard := true } : ContractState).timestamp
              bid).invoiceId
            (cleanupExpiredBids invoiceId { s with paymentGuard := true }) with
          paymentGuard := false }) := by
      unfold acceptBid
      rw [hw Unit]
      try dsimp only
      rw [hcore]
      rfl
    have habf : (acceptBidAndFund invoiceId bidId s).1 = .error .InvalidStatus := by
      unfold acceptBidAndFund
      rw [hw Nat]
      rw [hcore]
    have hgb : getBid (acceptBid invoiceId bidId s).2 bidId =
        some (sweepBid
          (sweepBid invoiceId ({ s with paymentGuard := true } : ContractState).timestamp
            bid).invoiceId
          (cleanupExpiredBids invoiceId
            ({ s with paymentGuard := true } : ContractState)).timestamp
          (sweepBid invoiceId ({ s with paymentGuard := true } : ContractState).timestamp
            bid)) := by
      rw [hab]
      exact acceptBidCore_fail_getBid { s with paymentGuard := true } invoiceId bidId bid hbid
    refine ⟨by rw [hab], habf, by rw [hab]; try rfl, by rw [hab]; try rfl,
      by rw [hab]; exact hinv, ?_⟩
    rw [hgb]
    simp only [Option.map_some']
    rcases sweepBid_status invoiceId
        ({ s with paymentGuard := true } : ContractState).timestamp bid with h1 | h1
    · rcases sweepBid_status
          (sweepBid invoiceId ({ s with paymentGuard := true } : ContractState).timestamp
            bid).invoiceId
          (cleanupExpiredBids invoiceId
            ({ s with paymentGuard := true } : ContractState)).timestamp
          (sweepBid invoiceId ({ s with paymentGuard := true } : ContractState).timestamp
            bid) with h2 | h2
      · exact Or.inl (by rw [h2, h1])
      · exact Or.inr (by rw [h2])
    · rcases sweepBid_status
          (sweepBid invoiceId ({ s with paymentGuard := true } : ContractState).timestamp
            bid).invoiceId
          (cleanupExpiredBids invoiceId
            ({ s with paymentGuard := true } : ContractState)).timestamp
          (sweepBid invoiceId ({ s with paymentGuard := true } : ContractState).timestamp
            bid) with h2 | h2
      · exact Or.inr (by rw [h2, h1])
      · exact Or.inr (by rw [h2])
  · intro hver hplaced hnexp hesc
    have hcore := acceptBidCore_ok { s with paymentGuard := true } invoiceId bidId
      invoice bid hinv hbid hbinv hauth hver hplaced hnexp hesc
    refine ⟨{ sAcceptedCore { s with paymentGuard := true } invoiceId invoice bid with
      paymentGuard := false }, ?_, ?_, ?_, ?_, ?_, rfl, ?_, rfl, rfl, hbinv, rfl, rfl, rfl,
      hbinv⟩
    · unfold acceptBid
      rw [hw Unit]
      try dsimp only
      rw [hcore]
      try rfl
    · unfold acceptBidAndFund
      rw [hw Nat]
      rw [hcore]
      try rfl
    · exact sAcceptedCore_getBid { s with paymentGuard := true } invoiceId bidId
        invoice bid hbid hnexp
    · exact sAcceptedCore_getInvoice { s with paymentGuard := true } invoiceId invoiceId
        invoice bid hinv
    · rw [show getInvoice ({ sAcceptedCore { s with paymentGuard := true } invoiceId
          invoice bid with paymentGuard := false }) invoiceId =
          getInvoice (sAcceptedCore { s with paymentGuard := true } invoiceId invoice bid)
            invoiceId from rfl,
        sAcceptedCore_getInvoice { s with paymentGuard := true } invoiceId invoiceId
          invoice bid hinv]
      simp [markAsFunded]
    · exact sAcceptedCore_getEscrow { s with paymentGuard := true } invoiceId invoiceId
        invoice bid hbinv hesc

/-- A verified invoice (id 0, business 4, face amount 1000). -/
def invVerifiedW : Invoice :=
  { id := 0, business := 4, amount := 1000, currency := 9, dueDate := 100,
    description := "D", status := .Verified, disputeStatus := .NoDispute,
    investor := none, fundedAmount := 0, fundedAt := 0, totalPaid := 0 }

/-- Witness state for C1: the verified invoice, the placed bid of 800 on it,
the business authorizing, no escrow held, guard free. -/
def stAccept : ContractState :=
  { initState with
    invoices := [invVerifiedW], verifiedIdx := [0], bids := [bidPlaced],
    auths := [4], timestamp := 10, nextId := 5 }

/-- Witness for C1: accepting the concrete placed bid of 800 on the verified
invoice funds the unit — the bid is `Accepted`, the invoice `Funded`, and
the escrow and investment both carry amount 800. -/
theorem accept_bid_funding_unit_witness :
    ∃ s6 : ContractState, acceptBid 0 1 stAccept = (.ok (), s6) ∧
      acceptBidAndFund 0 1 stAccept = (.ok 5, s6) ∧
      (getBid s6 1).map Bid.status = some .Accepted ∧
      (getInvoice s6 0).map Invoice.status = some .Funded ∧
      (getEscrowByInvoice s6 0).map Escrow.amount = some 800 ∧
      (getEscrowByInvoice s6 0).map Escrow.status = some EscrowStatus.Funded := by
  obtain ⟨s6, h1, h2, h3, h4, h5, h6, h7, h8⟩ :=
    (accept_bid_funding_unit stAccept 0 1 invVerifiedW bidPlaced (by decide) (by decide)
      (by decide) (by decide) (by decide)).2 (by decide) (by decide) (by decide) (by decide)
  exact ⟨s6, h1, h2, by rw [h3]; rfl, h5, by rw [h7]; rfl, by rw [h7]; rfl⟩

/-- A `Pending` invoice (id 0, business 4) for the authorization analysis. -/
def invC4 : Invoice :=
  { id := 0, business := 4, amount := 1000, currency := 9, dueDate := 100,
    description := "D", status := .Pending, disputeStatus := .NoDispute,
    investor := none, fundedAmount := 0, fundedAt := 0, totalPaid := 0 }

/-- A `Placed` bid of investor 3 on invoice 0 whose expiration (5) has
already passed at ledger time 10. -/
def bidC4 : Bid :=
  { bidId := 1, invoiceId := 0, investor := 3, bidAmount := 800, expectedReturn := 50,
    timestamp := 1, status := .Placed, expirationTimestamp := 5 }

/-- A state in which NOBODY has authorized anything (`auths = []`): the
pending invoice, the expired placed bid, an admin configured but not
authorizing. -/
def stAuthW : ContractState :=
  { initState with
    invoices := [invC4], pendingIdx := [0], bids := [bidC4],
    adminA := some 2, auths := [], timestamp := 10, nextId := 5 }

/-- C4 counterexample: in a state where no actor at all has authorized
(`auths = []`), `update_invoice_status` succeeds and changes the stored
invoice's status, `store_invoice` succeeds and stores a new invoice, and
`accept_bid` — though it fails with `Unauthorized` — has already mutated
the bid store before the check: the swept bid's stored status is
`Expired`.  So authorization of a named actor is not verified before
every mutation. -/
theorem mutation_without_authorization :
    stAuthW.auths = [] ∧
    (updateInvoiceStatus 0 .Verified stAuthW).1 = .ok () ∧
    (getInvoice (updateInvoiceStatus 0 .Verified stAuthW).2 0).map Invoice.status
      = some InvoiceStatus.Verified ∧
    (storeInvoice 7 500 9 90 "E" stAuthW).1 = .ok 5 ∧
    (storeInvoice 7 500 9 90 "E" stAuthW).2 ≠ stAuthW ∧
    (acceptBid 0 1 stAuthW).1 = .error .Unauthorized ∧
    (getBid (acceptBid 0 1 stAuthW).2 1).map Bid.status = some BidStatus.Expired := by
  decide

lemma acceptBidCore_unauth (s0 : ContractState) (invoiceId bidId : Nat)
    (invoice : Invoice) (bid : Bid)
    (hinv : getInvoice s0 invoiceId = some invoice)
    (hbid : getBid s0 bidId = some bid)
    (hauth : invoice.business ∉ s0.auths) :
    acceptBidCore invoiceId bidId s0 =
      (.error .Unauthorized,
        cleanupExpiredBids bid.invoiceId (cleanupExpiredBids invoiceId s0)) := by
  unfold acceptBidCore
  try dsimp only
  rw [getInvoice_cleanup, hinv]
  try dsimp only
  rw [getBid_cleanup, hbid]
  simp only [Option.map_some']
  try dsimp only
  rw [getBid_cleanup, getBid_cleanup, hbid]
  simp only [Option.map_some']
  try dsimp only
  rw [sweepBid_invoiceId]
  rw [if_pos (by simp only [cleanup_auths]; exact hauth)]
  try rfl

lemma cleanup_guard_reset (i j : Nat) (s : ContractState) (hguard : s.paymentGuard = false) :
    ({ cleanupExpiredBids i (cleanupExpiredBids j { s with paymentGuard := true }) with
        paymentGuard := false } : ContractState) =
      cleanupExpiredBids i (cleanupExpiredBids j s) := by
  cases s
  dsimp only at hguard
  subst hguard
  rfl

/-- C4 (amended): the authorization model the code actually implements.
`verify_invoice` (admin), `cancel_invoice` (business), `place_bid`
(investor) and `withdraw_bid` (bid owner) verify their named actor's
authorization before any mutation — an unauthorized call returns
`Unauthorized` with the state exactly unchanged.  `store_invoice` and
`update_invoice_status` require no authorization at all: a valid call
succeeds even when `auths = []`.  `accept_bid` does authorize the
business, but only after the expired-bid sweeps have already mutated the
bid store: its unauthorized failure state is the swept state, not the
original one. -/
theorem authorization_model_amended (s : ContractState) (invoiceId bidId : Nat)
    (invoice : Invoice) (bid : Bid) :
    (∀ admin, s.adminA = some admin → admin ∉ s.auths →
      verifyInvoice invoiceId s = (.error .Unauthorized, s)) ∧
    (getInvoice s invoiceId = some invoice → invoice.business ∉ s.auths →
      cancelInvoice invoiceId s = (.error .Unauthorized, s)) ∧
    (∀ investor bidAmount expectedReturn, investor ∉ s.auths →
      placeBid investor invoiceId bidAmount expectedReturn s = (.error .Unauthorized, s)) ∧
    (getBid s bidId = some bid → bid.investor ∉ s.auths →
      withdrawBid bidId s = (.error .Unauthorized, s)) ∧
    (∀ business amount currency dueDate description, s.auths = [] →
      0 < amount → s.timestamp < dueDate → description.length ≠ 0 →
      currencyAllowed s currency = true →
      (storeInvoice business amount currency dueDate description s).1 = .ok s.nextId) ∧
    (getInvoice s invoiceId = some invoice → s.auths = [] →
      (updateInvoiceStatus invoiceId .Paid s).1 = .ok ()) ∧
    (s.paymentGuard = false → getInvoice s invoiceId = some invoice →
      getBid s bidId = some bid → invoice.business ∉ s.auths →
      acceptBid invoiceId bidId s =
        (.error .Unauthorized,
          cleanupExpiredBids bid.invoiceId (cleanupExpiredBids invoiceId s))) := by
  refine ⟨?_, ?_, ?_, ?_, ?_, ?_, ?_⟩
  · intro admin hadm hna
    unfold verifyInvoice
    simp only [hadm]
    rw [if_pos hna]
  · intro hinv hna
    unfold cancelInvoice
    simp only [hinv]
    rw [if_pos hna]
  · intro investor bidAmount expectedReturn hna
    unfold placeBid
    rw [if_pos hna]
  · intro hbid hna
    unfold withdrawBid
    simp only [hbid]
    rw [if_pos hna]
  · intro business amount currency dueDate description _ hamt hdue hdesc hcur
    unfold storeInvoice
    rw [if_neg (by omega), if_neg (by omega), if_neg hdesc, if_neg (by simp [hcur])]
  · intro hinv _
    unfold updateInvoiceStatus
    simp only [hinv]
    try dsimp only
    try rfl
  · intro hguard hinv hbid hna
    have hcore := acceptBidCore_unauth { s with paymentGuard := true } invoiceId bidId
      invoice bid hinv hbid hna
    unfold acceptBid withPaymentGuard
    rw [if_neg (by simp [hguard])]
    try dsimp only
    rw [hcore]
    show ((Except.error QErr.Unauthorized : Except QErr Unit),
        ({ cleanupExpiredBids bid.invoiceId
            (cleanupExpiredBids invoiceId { s with paymentGuard := true }) with
          paymentGuard := false } : ContractState)) =
      (Except.error QErr.Unauthorized,
        cleanupExpiredBids bid.invoiceId (cleanupExpiredBids invoiceId s))
    rw [cleanup_guard_reset bid.invoiceId invoiceId s hguard]

/-- Witness for the amended C4 at the no-authorization state: the four
actor-checking operations refuse with the state untouched, the two
unauthenticated ones succeed, and `accept_bid` refuses with the
bid-store already swept. -/
theorem authorization_model_amended_witness :
    verifyInvoice 0 stAuthW = (.error .Unauthorized, stAuthW) ∧
    cancelInvoice 0 stAuthW = (.error .Unauthorized, stAuthW) ∧
    placeBid 3 0 800 50 stAuthW = (.error .Unauthorized, stAuthW) ∧
    withdrawBid 1 stAuthW = (.error .Unauthorized, stAuthW) ∧
    (storeInvoice 7 500 9 90 "E" stAuthW).1 = .ok 5 ∧
    (updateInvoiceStatus 0 .Paid stAuthW).1 = .ok () ∧
    acceptBid 0 1 stAuthW =
      (.error .Unauthorized, cleanupExpiredBids 0 (cleanupExpiredBids 0 stAuthW)) := by
  obtain ⟨h1, h2, h3, h4, h5, h6, h7⟩ :=
    authorization_model_amended stAuthW 0 1 invC4 bidC4
  refine ⟨h1 2 (by decide) (by decide), h2 (by decide) (by decide),
    h3 3 800 50 (by decide), h4 (by decide) (by decide), ?_, h6 (by decide) (by decide), ?_⟩
  · rw [h5 7 500 9 90 "E" (by decide) (by decide) (by decide) (by decide) (by decide)]
    rfl
  · rw [h7 (by decide) (by decide) (by decide) (by decide)]
    try rfl

/-- The `Accepted`-bid predicate counted by `countAccepted`. -/
def accPred (i : Nat) (b : Bid) : Bool := decide (b.invoiceId = i ∧ b.status = .Accepted)

lemma countAccepted_eq_filter (l : List Bid) (i : Nat) :
    countAccepted l i = (l.filter (accPred i)).length := rfl

lemma map_congr_mem {α β : Type} (l : List α) (f g : α → β) (h : ∀ a ∈ l, f a = g a) :
    l.map f = l.map g := by
  induction l with
  | nil => rfl
  | cons a t ih =>
    rw [List.map_cons, List.map_cons, h a (by simp), ih (fun x hx => h x (by simp [hx]))]

lemma map_id_fun {α : Type} (l : List α) : l.map (fun a => a) = l := by
  induction l with
  | nil => rfl
  | cons a t ih => rw [List.map_cons, ih]

lemma filter_congr_mem {α : Type} (l : List α) (p q : α → Bool)
    (h : ∀ a ∈ l, p a = q a) : l.filter p = l.filter q := by
  induction l with
  | nil => rfl
  | cons a t ih =>
    rw [List.filter_cons, List.filter_cons, h a (by simp),
      ih (fun x hx => h x (by simp [hx]))]

lemma filter_map_comm {α : Type} (l : List α) (f : α → α) (p : α → Bool) :
    (l.map f).filter p = (l.filter (fun a => p (f a))).map f := by
  induction l with
  | nil => rfl
  | cons a t ih =>
    rw [List.map_cons, List.filter_cons, List.filter_cons]
    by_cases hp : p (f a) = true
    · rw [if_pos hp, if_pos hp, List.map_cons, ih]
    · rw [if_neg hp, if_neg hp, ih]

lemma length_filter_le_of_imp {α : Type} (l : List α) (p q : α → Bool)
    (h : ∀ a, p a = true → q a = true) :
    (l.filter p).length ≤ (l.filter q).length := by
  induction l with
  | nil => exact Nat.le_refl _
  | cons a t ih =>
    rw [List.filter_cons, List.filter_cons]
    by_cases hp : p a = true
    · rw [if_pos hp, if_pos (h a hp)]
      simpa using ih
    · rw [if_neg hp]
      by_cases hq : q a = true
      · rw [if_pos hq]
        exact Nat.le_trans ih (Nat.le_succ _)
      · rw [if_neg hq]
        exact ih

lemma countAccepted_map_congr (l : List Bid) (f : Bid → Bid) (i : Nat)
    (hf : ∀ b ∈ l, accPred i (f b) = accPred i b) :
    countAccepted (l.map f) i = countAccepted l i := by
  rw [countAccepted_eq_filter, countAccepted_eq_filter, filter_map_comm, List.length_map,
    filter_congr_mem l _ _ hf]

lemma countAccepted_map_le (l : List Bid) (f : Bid → Bid) (i : Nat)
    (hf : ∀ b, accPred i (f b) = true → accPred i b = true) :
    countAccepted (l.map f) i ≤ countAccepted l i := by
  rw [countAccepted_eq_filter, countAccepted_eq_filter, filter_map_comm, List.length_map]
  exact length_filter_le_of_imp l _ _ hf

lemma countAccepted_append (l1 l2 : List Bid) (i : Nat) :
    countAccepted (l1 ++ l2) i = countAccepted l1 i + countAccepted l2 i := by
  rw [countAccepted_eq_filter, countAccepted_eq_filter, countAccepted_eq_filter,
    List.filter_append, List.length_append]

lemma countAccepted_eq_zero (l : List Bid) (i : Nat) (h : ∀ b ∈ l, accPred i b = false) :
    countAccepted l i = 0 := by
  induction l with
  | nil => rfl
  | cons a t ih =>
    rw [countAccepted_eq_filter, List.filter_cons, if_neg (by simp [h a (by simp)])]
    rw [← countAccepted_eq_filter]
    exact ih (fun x hx => h x (by simp [hx]))

lemma accPred_false_of_count_zero (l : List Bid) (i : Nat) (h : countAccepted l i = 0) :
    ∀ b ∈ l, accPred i b = false := by
  intro b hb
  cases hx : accPred i b with
  | false => rfl
  | true =>
    have hmem : b ∈ l.filter (accPred i) := List.mem_filter.mpr ⟨hb, hx⟩
    rw [countAccepted_eq_filter] at h
    rw [List.eq_nil_of_length_eq_zero h] at hmem
    cases hmem

lemma countAccepted_update_of_zero (l : List Bid) (bid b2 : Bid) (i : Nat)
    (hnd : (l.map Bid.bidId).Nodup)
    (hzero : countAccepted l i = 0) :
    countAccepted (l.map (fun x => if x.bidId = bid.bidId then b2 else x)) i ≤ 1 := by
  induction l with
  | nil => exact Nat.le_succ 0
  | cons a t ih =>
    have hnd' := hnd
    rw [List.map_cons, List.nodup_cons] at hnd'
    have hz := accPred_false_of_count_zero _ _ hzero
    have hzt : countAccepted t i = 0 :=
      countAccepted_eq_zero _ _ (fun x hx => hz x (by simp [hx]))
    rw [List.map_cons, countAccepted_eq_filter, List.filter_cons]
    try dsimp only
    by_cases hfa : accPred i (if a.bidId = bid.bidId then b2 else a) = true
    · rw [if_pos hfa]
      have haid : a.bidId = bid.bidId := by
        by_contra hne
        rw [if_neg hne] at hfa
        rw [hz a (by simp)] at hfa
        cases hfa
      have htid : ∀ x ∈ t, ¬(x.bidId = bid.bidId) := by
        intro x hx hxb
        exact hnd'.1 (List.mem_map.mpr ⟨x, hx, by rw [hxb, haid]⟩)
      rw [map_congr_mem t _ (fun x => x) (fun x hx => if_neg (htid x hx)), map_id_fun]
      rw [List.length_cons]
      rw [show (t.filter (accPred i)).length = countAccepted t i from
        (countAccepted_eq_filter t i).symm, hzt]
    · rw [if_neg hfa]
      rw [← countAccepted_eq_filter]
      exact ih hnd'.2 hzt

/-- The bid/escrow well-formedness and single-acceptance invariant: stored
bid ids are distinct and below the id counter, stored escrow ids likewise,
each invoice has at most one `Accepted` bid, and an invoice with an
`Accepted` bid holds an escrow. -/
def StateInv (s : ContractState) : Prop :=
  ((s.bids.map Bid.bidId).Nodup ∧ ∀ b ∈ s.bids, b.bidId < s.nextId) ∧
  ((s.escrows.map Escrow.escrowId).Nodup ∧ ∀ e ∈ s.escrows, e.escrowId < s.nextId) ∧
  (∀ i, countAccepted s.bids i ≤ 1 ∧
    (1 ≤ countAccepted s.bids i → ∃ e ∈ s.escrows, e.invoiceId = i))

lemma stateInv_of_fields {s s' : ContractState} (hb : s'.bids = s.bids)
    (he : s'.escrows = s.escrows) (hn : s.nextId ≤ s'.nextId) (h : StateInv s) :
    StateInv s' := by
  obtain ⟨⟨hbnd, hblt⟩, ⟨hend, helt⟩, hacc⟩ := h
  refine ⟨⟨by rw [hb]; exact hbnd, ?_⟩, ⟨by rw [he]; exact hend, ?_⟩, ?_⟩
  · intro b hbmem
    rw [hb] at hbmem
    exact Nat.lt_of_lt_of_le (hblt b hbmem) hn
  · intro e hemem
    rw [he] at hemem
    exact Nat.lt_of_lt_of_le (helt e hemem) hn
  · intro i
    rw [hb, he]
    exact hacc i

@[simp] lemma setStatusIdx_bids (s : ContractState) (st : InvoiceStatus) (l : List Nat) :
    (setStatusIdx s st l).bids = s.bids := by cases st <;> rfl

@[simp] lemma setStatusIdx_escrows (s : ContractState) (st : InvoiceStatus) (l : List Nat) :
    (setStatusIdx s st l).escrows = s.escrows := by cases st <;> rfl

@[simp] lemma setStatusIdx_nextId (s : ContractState) (st : InvoiceStatus) (l : List Nat) :
    (setStatusIdx s st l).nextId = s.nextId := by cases st <;> rfl

@[simp] lemma removeFromStatusIdx_bids (st : InvoiceStatus) (i : Nat) (s : ContractState) :
    (removeFromStatusIdx st i s).bids = s.bids := setStatusIdx_bids _ _ _

@[simp] lemma removeFromStatusIdx_escrows (st : InvoiceStatus) (i : Nat) (s : ContractState) :
    (removeFromStatusIdx st i s).escrows = s.escrows := setStatusIdx_escrows _ _ _

@[simp] lemma removeFromStatusIdx_nextId (st : InvoiceStatus) (i : Nat) (s : ContractState) :
    (removeFromStatusIdx st i s).nextId = s.nextId := setStatusIdx_nextId _ _ _

@[simp] lemma addToStatusIdx_bids (st : InvoiceStatus) (i : Nat) (s : ContractState) :
    (addToStatusIdx st i s).bids = s.bids := setStatusIdx_bids _ _ _

@[simp] lemma addToStatusIdx_escrows (st : InvoiceStatus) (i : Nat) (s : ContractState) :
    (addToStatusIdx st i s).escrows = s.escrows := setStatusIdx_escrows _ _ _

@[simp] lemma addToStatusIdx_nextId (st : InvoiceStatus) (i : Nat) (s : ContractState) :
    (addToStatusIdx st i s).nextId = s.nextId := setStatusIdx_nextId _ _ _

@[simp] lemma updateInvoiceRecord_bids (v : Invoice) (s : ContractState) :
    (updateInvoiceRecord v s).bids = s.bids := rfl

@[simp] lemma updateInvoiceRecord_escrows (v : Invoice) (s : ContractState) :
    (updateInvoiceRecord v s).escrows = s.escrows := rfl

@[simp] lemma updateInvoiceRecord_nextId (v : Invoice) (s : ContractState) :
    (updateInvoiceRecord v s).nextId = s.nextId := rfl

@[simp] lemma updateInvestmentRecord_bids (v : Investment) (s : ContractState) :
    (updateInvestmentRecord v s).bids = s.bids := rfl

@[simp] lemma updateInvestmentRecord_escrows (v : Investment) (s : ContractState) :
    (updateInvestmentRecord v s).escrows = s.escrows := rfl

@[simp] lemma updateInvestmentRecord_nextId (v : Investment) (s : ContractState) :
    (updateInvestmentRecord v s).nextId = s.nextId := rfl

@[simp] lemma updateInvestorAnalytics_bids (inv : Nat) (a : Int) (b : Bool) (s : ContractState) :
    (updateInvestorAnalytics inv a b s).2.bids = s.bids := by
  unfold updateInvestorAnalytics
  split <;> rfl

@[simp] lemma updateInvestorAnalytics_escrows (inv : Nat) (a : Int) (b : Bool)
    (s : ContractState) : (updateInvestorAnalytics inv a b s).2.escrows = s.escrows := by
  unfold updateInvestorAnalytics
  split <;> rfl

@[simp] lemma updateInvestorAnalytics_nextId (inv : Nat) (a : Int) (b : Bool)
    (s : ContractState) : (updateInvestorAnalytics inv a b s).2.nextId = s.nextId := by
  unfold updateInvestorAnalytics
  split <;> rfl

lemma inj_of_nodup_map {α β : Type} (l : List α) (f : α → β) :
    (l.map f).Nodup → ∀ x ∈ l, ∀ y ∈ l, f x = f y → x = y := by
  induction l with
  | nil =>
    intro _ x hx
    cases hx
  | cons a t ih =>
    intro hnd x hx y hy hxy
    rw [List.map_cons, List.nodup_cons] at hnd
    rcases List.mem_cons.mp hx with rfl | hx'
    · rcases List.mem_cons.mp hy with rfl | hy'
      · rfl
      · exact absurd (by rw [hxy]; exact List.mem_map.mpr ⟨y, hy', rfl⟩) hnd.1
    · rcases List.mem_cons.mp hy with rfl | hy'
      · exact absurd (by rw [← hxy]; exact List.mem_map.mpr ⟨x, hx', rfl⟩) hnd.1
      · exact ih hnd.2 x hx' y hy' hxy

lemma stateInv_update_escrow (s : ContractState) (e e2 : Escrow) (s' : ContractState)
    (hb : s'.bids = s.bids)
    (he : s'.escrows = s.escrows.map (fun x => if x.escrowId = e.escrowId then e2 else x))
    (hn : s'.nextId = s.nextId)
    (hmem : e ∈ s.escrows)
    (hid : e2.escrowId = e.escrowId) (hinv : e2.invoiceId = e.invoiceId)
    (h : StateInv s) : StateInv s' := by
  obtain ⟨hB, ⟨hend, helt⟩, hacc⟩ := h
  have hfun : (Escrow.escrowId ∘ fun x => if x.escrowId = e.escrowId then e2 else x) =
      Escrow.escrowId := by
    funext x
    by_cases hx : x.escrowId = e.escrowId
    · simp [hx, hid]
    · simp [hx]
  refine ⟨⟨by rw [hb]; exact hB.1, ?_⟩, ⟨?_, ?_⟩, ?_⟩
  · intro b hbm
    rw [hb] at hbm
    rw [hn]
    exact hB.2 b hbm
  · rw [he, List.map_map, hfun]
    exact hend
  · intro x hx
    rw [he] at hx
    obtain ⟨y, hy, rfl⟩ := List.mem_map.mp hx
    have hyid : (if y.escrowId = e.escrowId then e2 else y).escrowId = y.escrowId := by
      by_cases hyy : y.escrowId = e.escrowId
      · rw [if_pos hyy, hid, hyy]
      · rw [if_neg hyy]
    rw [hyid, hn]
    exact helt y hy
  · intro i
    rw [hb, he]
    refine ⟨(hacc i).1, ?_⟩
    intro hc
    obtain ⟨w, hw, hwi⟩ := (hacc i).2 hc
    by_cases hww : w.escrowId = e.escrowId
    · have hwe : w = e := inj_of_nodup_map s.escrows Escrow.escrowId hend w hw e hmem hww
      refine ⟨e2, List.mem_map.mpr ⟨w, hw, by rw [if_pos hww]⟩, ?_⟩
      rw [hinv, ← hwe]
      exact hwi
    · exact ⟨w, List.mem_map.mpr ⟨w, hw, by rw [if_neg hww]⟩, hwi⟩

lemma bidId_update_map (l : List Bid) (bid b2 : Bid) (hid : b2.bidId = bid.bidId) :
    (l.map (fun x => if x.bidId = bid.bidId then b2 else x)).map Bid.bidId =
      l.map Bid.bidId := by
  rw [List.map_map]
  have hfun : (Bid.bidId ∘ fun x => if x.bidId = bid.bidId then b2 else x) = Bid.bidId := by
    funext x
    by_cases hx : x.bidId = bid.bidId
    · simp [hx, hid]
    · simp [hx]
  rw [hfun]

lemma sweepBid_accPred (j t i : Nat) (b : Bid) :
    accPred i (sweepBid j t b) = accPred i b := by
  unfold sweepBid
  split
  · rename_i hc
    simp [accPred, hc.2.1]
  · rfl

lemma cleanup_inv (j : Nat) (s : ContractState) (h : StateInv s) :
    StateInv (cleanupExpiredBids j s) := by
  obtain ⟨⟨hbnd, hblt⟩, hE, hacc⟩ := h
  refine ⟨⟨?_, ?_⟩, hE, ?_⟩
  · show ((s.bids.map (sweepBid j s.timestamp)).map Bid.bidId).Nodup
    rw [List.map_map, show (Bid.bidId ∘ sweepBid j s.timestamp) = Bid.bidId from
      funext fun b => sweepBid_bidId j s.timestamp b]
    exact hbnd
  · intro b hb
    obtain ⟨y, hy, rfl⟩ := List.mem_map.mp hb
    show (sweepBid j s.timestamp y).bidId < s.nextId
    rw [sweepBid_bidId]
    exact hblt y hy
  · intro i
    have hcnt : countAccepted (cleanupExpiredBids j s).bids i = countAccepted s.bids i := by
      show countAccepted (s.bids.map (sweepBid j s.timestamp)) i = _
      exact countAccepted_map_congr _ _ _ (fun b _ => sweepBid_accPred j s.timestamp i b)
    rw [show (cleanupExpiredBids j s).escrows = s.escrows from rfl, hcnt]
    exact hacc i

lemma stateInv_append_bid (s1 : ContractState) (b : Bid) (s' : ContractState)
    (hb : s'.bids = s1.bids ++ [b]) (he : s'.escrows = s1.escrows)
    (hn : s'.nextId = s1.nextId + 1)
    (hid : b.bidId = s1.nextId) (hpl : b.status = .Placed)
    (h : StateInv s1) : StateInv s' := by
  obtain ⟨⟨hbnd, hblt⟩, ⟨hend, helt⟩, hacc⟩ := h
  refine ⟨⟨?_, ?_⟩, ⟨by rw [he]; exact hend, ?_⟩, ?_⟩
  · rw [hb, List.map_append]
    rw [List.nodup_append]
    refine ⟨hbnd, List.nodup_singleton _, ?_⟩
    intro x hx1 hx2
    rw [List.map_singleton, List.mem_singleton] at hx2
    obtain ⟨y, hy, hyx⟩ := List.mem_map.mp hx1
    subst hx2
    rw [hid] at hyx
    have := hblt y hy
    omega
  · intro x hx
    rw [hb] at hx
    rcases List.mem_append.mp hx with hx1 | hx1
    · have := hblt x hx1
      rw [hn]
      omega
    · rw [List.mem_singleton] at hx1
      subst hx1
      rw [hn, hid]
      omega
  · intro x hx
    rw [he] at hx
    have := helt x hx
    rw [hn]
    omega
  · intro i
    have hzb : countAccepted [b] i = 0 := by
      refine countAccepted_eq_zero _ _ (fun x hx => ?_)
      rw [List.mem_singleton] at hx
      subst hx
      simp [accPred, hpl]
    rw [hb, he, countAccepted_append, hzb, Nat.add_zero]
    exact hacc i

lemma stateInv_bid_update_le (s : ContractState) (bid b2 : Bid) (s' : ContractState)
    (hb : s'.bids = s.bids.map (fun x => if x.bidId = bid.bidId then b2 else x))
    (he : s'.escrows = s.escrows) (hn : s'.nextId = s.nextId)
    (hid : b2.bidId = bid.bidId)
    (hnotacc : ∀ i, accPred i b2 = false)
    (h : StateInv s) : StateInv s' := by
  obtain ⟨⟨hbnd, hblt⟩, hE, hacc⟩ := h
  have hle : ∀ i, countAccepted s'.bids i ≤ countAccepted s.bids i := by
    intro i
    rw [hb]
    refine countAccepted_map_le _ _ _ (fun x hx => ?_)
    by_cases hxx : x.bidId = bid.bidId
    · rw [if_pos hxx, hnotacc i] at hx
      cases hx
    · rw [if_neg hxx] at hx
      exact hx
  refine ⟨⟨?_, ?_⟩, by rw [he, hn]; exact hE, ?_⟩
  · rw [hb, bidId_update_map s.bids bid b2 hid]
    exact hbnd
  · intro x hx
    rw [hb] at hx
    obtain ⟨y, hy, rfl⟩ := List.mem_map.mp hx
    have hyid : (if y.bidId = bid.bidId then b2 else y).bidId = y.bidId := by
      by_cases hyy : y.bidId = bid.bidId
      · rw [if_pos hyy, hid, hyy]
      · rw [if_neg hyy]
    rw [hyid, hn]
    exact hblt y hy
  · intro i
    refine ⟨Nat.le_trans (hle i) (hacc i).1, ?_⟩
    intro hc
    rw [he]
    exact (hacc i).2 (Nat.le_trans hc (hle i))

lemma stateInv_accept (s2 : ContractState) (bid : Bid) (esc : Escrow) (s' : ContractState)
    (hb : s'.bids = s2.bids.map
      (fun x => if x.bidId = bid.bidId then { bid with status := BidStatus.Accepted } else x))
    (he : s'.escrows = s2.escrows ++ [esc])
    (hn : s'.nextId = s2.nextId + 2)
    (hmem : bid ∈ s2.bids)
    (hnone : ∀ e ∈ s2.escrows, ¬(e.invoiceId = bid.invoiceId))
    (hescid : esc.escrowId = s2.nextId)
    (hescinv : esc.invoiceId = bid.invoiceId)
    (h : StateInv s2) : StateInv s' := by
  obtain ⟨⟨hbnd, hblt⟩, ⟨hend, helt⟩, hacc⟩ := h
  have hzero : countAccepted s2.bids bid.invoiceId = 0 := by
    rcases Nat.eq_zero_or_pos (countAccepted s2.bids bid.invoiceId) with hz | hp
    · exact hz
    · obtain ⟨e, hemem, hei⟩ := (hacc bid.invoiceId).2 hp
      exact absurd hei (hnone e hemem)
  refine ⟨⟨?_, ?_⟩, ⟨?_, ?_⟩, ?_⟩
  · rw [hb, bidId_update_map s2.bids bid { bid with status := BidStatus.Accepted } rfl]
    exact hbnd
  · intro x hx
    rw [hb] at hx
    obtain ⟨y, hy, rfl⟩ := List.mem_map.mp hx
    have hyid : (if y.bidId = bid.bidId then
        ({ bid with status := BidStatus.Accepted } : Bid) else y).bidId = y.bidId := by
      by_cases hyy : y.bidId = bid.bidId
      · rw [if_pos hyy]
        exact hyy.symm
      · rw [if_neg hyy]
    rw [hyid, hn]
    have := hblt y hy
    omega
  · rw [he, List.map_append]
    rw [List.nodup_append]
    refine ⟨hend, List.nodup_singleton _, ?_⟩
    intro x hx1 hx2
    rw [List.map_singleton, List.mem_singleton] at hx2
    obtain ⟨y, hy, hyx⟩ := List.mem_map.mp hx1
    subst hx2
    rw [hescid] at hyx
    have := helt y hy
    omega
  · intro x hx
    rw [he] at hx
    rcases List.mem_append.mp hx with hx1 | hx1
    · have := helt x hx1
      rw [hn]
      omega
    · rw [List.mem_singleton] at hx1
      subst hx1
      rw [hn, hescid]
      omega
  · intro i
    by_cases hi : i = bid.invoiceId
    · subst hi
      constructor
      · rw [hb]
        exact countAccepted_update_of_zero s2.bids bid _ bid.invoiceId hbnd hzero
      · intro _
        refine ⟨esc, ?_, hescinv⟩
        rw [he]
        exact List.mem_append.mpr (Or.inr (by simp))
    · have hne : ¬(bid.invoiceId = i) := fun hh => hi hh.symm
      have hcnt : countAccepted s'.bids i = countAccepted s2.bids i := by
        rw [hb]
        refine countAccepted_map_congr _ _ _ (fun x hxm => ?_)
        by_cases hxx : x.bidId = bid.bidId
        · have hbeq : x = bid := inj_of_nodup_map s2.bids Bid.bidId hbnd x hxm bid hmem hxx
          subst hbeq
          rw [if_pos hxx]
          have h1 : accPred i ({ x with status := BidStatus.Accepted } : Bid) = false := by
            simp [accPred, hne]
          have h2 : accPred i x = false := by
            simp [accPred, hne]
          rw [h1, h2]
        · rw [if_neg hxx]
      refine ⟨by rw [hcnt]; exact (hacc i).1, ?_⟩
      intro hc
      rw [hcnt] at hc
      obtain ⟨e, hemem, hei⟩ := (hacc i).2 hc
      refine ⟨e, ?_, hei⟩
      rw [he]
      exact List.mem_append.mpr (Or.inl hemem)

lemma stateInv_auths (s : ContractState) (a : List Nat) (h : StateInv s) :
    StateInv { s with auths := a } := stateInv_of_fields rfl rfl (Nat.le_refl _) h

lemma withPaymentGuard_inv {α : Type} (body : ContractState → CallResult α) (s : ContractState)
    (hbody : ∀ s0, StateInv s0 → StateInv (body s0).2)
    (h : StateInv s) : StateInv (withPaymentGuard body s).2 := by
  unfold withPaymentGuard
  split
  · exact h
  · exact stateInv_of_fields rfl rfl (Nat.le_refl _)
      (hbody _ (stateInv_of_fields rfl rfl (Nat.le_refl _) h))

lemma adminStorageInit_inv (a : Nat) (s : ContractState) (h : StateInv s) :
    StateInv (adminStorageInit a s).2 := by
  unfold adminStorageInit
  repeat' split
  all_goals first
    | exact h
    | exact stateInv_of_fields (by simp) (by simp) (by simp) h

lemma setAdmin_inv (a : Nat) (s : ContractState) (h : StateInv s) :
    StateInv (setAdmin a s).2 := by
  unfold setAdmin
  repeat' split
  all_goals first
    | exact h
    | exact stateInv_of_fields (by simp) (by simp) (by simp) h

lemma addCurrency_inv (a c : Nat) (s : ContractState) (h : StateInv s) :
    StateInv (addCurrency a c s).2 := by
  unfold addCurrency
  repeat' split
  all_goals first
    | exact h
    | exact stateInv_of_fields (by simp) (by simp) (by simp) h

lemma submitInvestorKyc_inv (inv : Nat) (s : ContractState) (h : StateInv s) :
    StateInv (submitInvestorKyc inv s).2 := by
  unfold submitInvestorKyc
  try dsimp only
  repeat' split
  all_goals first
    | exact h
    | exact stateInv_of_fields (by simp) (by simp) (by simp) h

lemma verifyInvestor_inv (inv : Nat) (lim : Int) (s : ContractState) (h : StateInv s) :
    StateInv (verifyInvestor inv lim s).2 := by
  unfold verifyInvestor
  try dsimp only
  repeat' split
  all_goals first
    | exact h
    | exact stateInv_of_fields (by simp) (by simp) (by simp) h

lemma storeInvoice_inv (b : Nat) (a : Int) (c d : Nat) (de : String) (s : ContractState)
    (h : StateInv s) : StateInv (storeInvoice b a c d de s).2 := by
  unfold storeInvoice
  try dsimp only
  repeat' split
  all_goals first
    | exact h
    | exact stateInv_of_fields (by simp) (by simp) (by simp) h

lemma cancelInvoice_inv (i : Nat) (s : ContractState) (h : StateInv s) :
    StateInv (cancelInvoice i s).2 := by
  unfold cancelInvoice
  try dsimp only
  repeat' split
  all_goals first
    | exact h
    | exact stateInv_of_fields (by simp) (by simp) (by simp) h

lemma updateInvoiceStatus_inv (i : Nat) (st : InvoiceStatus) (s : ContractState)
    (h : StateInv s) : StateInv (updateInvoiceStatus i st s).2 := by
  unfold updateInvoiceStatus
  try dsimp only
  repeat' split
  all_goals first
    | exact h
    | exact stateInv_of_fields (by simp) (by simp) (by simp) h

lemma addInvestmentInsurance_inv (i p pct : Nat) (s : ContractState) (h : StateInv s) :
    StateInv (addInvestmentInsurance i p pct s).2 := by
  unfold addInvestmentInsurance
  try dsimp only
  repeat' split
  all_goals first
    | exact h
    | exact stateInv_of_fields (by simp) (by simp) (by simp) h

lemma doProcessPartialPayment_inv (i : Nat) (p : Int) (s : ContractState) (h : StateInv s) :
    StateInv (doProcessPartialPayment i p s).2 := by
  unfold doProcessPartialPayment
  try dsimp only
  repeat' split
  all_goals first
    | exact h
    | exact stateInv_of_fields (by simp) (by simp) (by simp) h

lemma processPartialPayment_inv (i : Nat) (p : Int) (s : ContractState) (h : StateInv s) :
    StateInv (processPartialPayment i p s).2 :=
  doProcessPartialPayment_inv i p s h

lemma createDispute_inv (i c : Nat) (r e : String) (s : ContractState) (h : StateInv s) :
    StateInv (createDispute i c r e s).2 := by
  unfold createDispute
  try dsimp only
  repeat' split
  all_goals first
    | exact h
    | exact stateInv_of_fields (by simp) (by simp) (by simp) h

lemma putDisputeUnderReview_inv (i r : Nat) (s : ContractState) (h : StateInv s) :
    StateInv (putDisputeUnderReview i r s).2 := by
  unfold putDisputeUnderReview
  try dsimp only
  repeat' split
  all_goals first
    | exact h
    | exact stateInv_of_fields (by simp) (by simp) (by simp) h

lemma resolveDispute_inv (i r : Nat) (res : String) (s : ContractState) (h : StateInv s) :
    StateInv (resolveDispute i r res s).2 := by
  unfold resolveDispute
  try dsimp only
  repeat' split
  all_goals first
    | exact h
    | exact stateInv_of_fields (by simp) (by simp) (by simp) h

lemma doSettleInvoice_inv (i : Nat) (p : Int) (s : ContractState) (h : StateInv s) :
    StateInv (doSettleInvoice i p s).2 := by
  unfold doSettleInvoice
  try dsimp only
  repeat' split
  all_goals first
    | exact h
    | exact stateInv_of_fields (by simp) (by simp) (by simp) h

lemma doMarkInvoiceDefaulted_inv (i : Nat) (g : Option Nat) (s : ContractState)
    (h : StateInv s) : StateInv (doMarkInvoiceDefaulted i g s).2 := by
  unfold doMarkInvoiceDefaulted
  try dsimp only
  repeat' split
  all_goals first
    | exact h
    | exact stateInv_of_fields (by simp) (by simp) (by simp) h

lemma settleInvoice_inv (i : Nat) (p : Int) (s : ContractState) (h : StateInv s) :
    StateInv (settleInvoice i p s).2 := by
  have hr : StateInv (withPaymentGuard (doSettleInvoice i p) s).2 :=
    withPaymentGuard_inv _ _ (fun s0 h0 => doSettleInvoice_inv i p s0 h0) h
  unfold settleInvoice
  try dsimp only
  repeat' split
  all_goals first
    | exact hr
    | exact stateInv_of_fields (by simp) (by simp) (by simp) hr

lemma markInvoiceDefaulted_inv (i : Nat) (g : Option Nat) (s : ContractState)
    (h : StateInv s) : StateInv (markInvoiceDefaulted i g s).2 := by
  have hr : StateInv (doMarkInvoiceDefaulted i g s).2 := doMarkInvoiceDefaulted_inv i g s h
  unfold markInvoiceDefaulted
  try dsimp only
  repeat' split
  all_goals first
    | exact hr
    | exact stateInv_of_fields (by simp) (by simp) (by simp) hr

lemma releaseEscrow_inv (i : Nat) (s : ContractState) (h : StateInv s) :
    StateInv (releaseEscrow i s).2 := by
  unfold releaseEscrow
  split
  · exact h
  · rename_i e heq
    split
    · exact h
    · exact stateInv_update_escrow s e { e with status := EscrowStatus.Released } _ rfl rfl rfl
        (List.mem_of_find?_eq_some heq) rfl rfl h

lemma refundEscrow_inv (i : Nat) (s : ContractState) (h : StateInv s) :
    StateInv (refundEscrow i s).2 := by
  unfold refundEscrow
  split
  · exact h
  · rename_i e heq
    split
    · exact h
    · exact stateInv_update_escrow s e { e with status := EscrowStatus.Refunded } _ rfl rfl rfl
        (List.mem_of_find?_eq_some heq) rfl rfl h

lemma releaseEscrowFunds_inv (i : Nat) (s : ContractState) (h : StateInv s) :
    StateInv (releaseEscrowFunds i s).2 := by
  unfold releaseEscrowFunds
  refine withPaymentGuard_inv _ _ (fun s0 h0 => ?_) h
  split
  · exact h0
  · exact releaseEscrow_inv i s0 h0

lemma doRefundEscrowFunds_inv (i c : Nat) (s : ContractState) (h : StateInv s) :
    StateInv (doRefundEscrowFunds i c s).2 := by
  unfold doRefundEscrowFunds
  repeat' split
  all_goals first
    | exact h
    | exact refundEscrow_inv i s h

lemma refundEscrowFunds_inv (i c : Nat) (s : ContractState) (h : StateInv s) :
    StateInv (refundEscrowFunds i c s).2 := by
  unfold refundEscrowFunds
  exact withPaymentGuard_inv _ _ (fun s0 h0 => doRefundEscrowFunds_inv i c s0 h0) h

lemma verifyInvoice_inv (i : Nat) (s : ContractState) (h : StateInv s) :
    StateInv (verifyInvoice i s).2 := by
  unfold verifyInvoice
  try dsimp only
  repeat' split
  all_goals first
    | exact h
    | exact releaseEscrowFunds_inv i _ (stateInv_of_fields (by simp) (by simp) (by simp) h)
    | exact stateInv_of_fields (by simp) (by simp) (by simp) h

lemma placeBid_inv (inv invId : Nat) (amt ret : Int) (s : ContractState) (h : StateInv s) :
    StateInv (placeBid inv invId amt ret s).2 := by
  unfold placeBid
  try dsimp only
  repeat' split
  all_goals first
    | exact h
    | exact stateInv_append_bid (cleanupExpiredBids invId s) _ _ rfl rfl rfl rfl rfl
        (cleanup_inv invId s h)

lemma withdrawBid_inv (bidId : Nat) (s : ContractState) (h : StateInv s) :
    StateInv (withdrawBid bidId s).2 := by
  unfold withdrawBid
  repeat' split
  all_goals first
    | exact h
    | exact stateInv_bid_update_le s _ _ _ rfl rfl rfl rfl (fun i => by simp [accPred]) h

lemma acceptBidCore_inv (invoiceId bidId : Nat) (s : ContractState) (h : StateInv s) :
    StateInv (acceptBidCore invoiceId bidId s).2 := by
  have h1 : StateInv (cleanupExpiredBids invoiceId s) := cleanup_inv invoiceId s h
  unfold acceptBidCore
  try dsimp only
  split
  · exact h1
  · rename_i invoice hinv
    split
    · exact h1
    · rename_i bidA hbidA
      have h2 : StateInv (cleanupExpiredBids bidA.invoiceId (cleanupExpiredBids invoiceId s)) :=
        cleanup_inv _ _ h1
      split
      · exact h2
      · rename_i bid hbid
        have hbidval : bid =
            sweepBid bidA.invoiceId (cleanupExpiredBids invoiceId s).timestamp bidA := by
          have hb' := hbid
          rw [getBid_cleanup, hbidA, Option.map_some'] at hb'
          exact (Option.some.inj hb').symm
        have hbi : bid.invoiceId = bidA.invoiceId := by
          rw [hbidval, sweepBid_invoiceId]
        split
        · exact h2
        · split
          · exact h2
          · split
            · rename_i e3 s3 heq
              unfold createEscrow at heq
              split at heq
              · injection heq with hq1 hq2
                rw [← hq2]
                exact h2
              · injection heq with hq1 hq2
                cases hq1
            · rename_i escrowId s3 heq
              unfold createEscrow at heq
              split at heq
              · injection heq with hq1 hq2
                cases hq1
              · rename_i hesc
                injection heq with hq1 hq2
                rw [← hq2]
                try dsimp only
                refine stateInv_accept
                  (cleanupExpiredBids bidA.invoiceId (cleanupExpiredBids invoiceId s)) bid
                  _ _ rfl rfl rfl (List.mem_of_find?_eq_some hbid) ?_ rfl hbi.symm h2
                intro e hem hei
                have hall := List.find?_eq_none.mp hesc e hem
                apply hall
                rw [hbi] at hei
                exact decide_eq_true hei

lemma acceptBid_inv (i b : Nat) (s : ContractState) (h : StateInv s) :
    StateInv (acceptBid i b s).2 := by
  unfold acceptBid
  refine withPaymentGuard_inv _ _ (fun s0 h0 => ?_) h
  try dsimp only
  exact acceptBidCore_inv i b s0 h0

lemma acceptBidAndFund_inv (i b : Nat) (s : ContractState) (h : StateInv s) :
    StateInv (acceptBidAndFund i b s).2 := by
  unfold acceptBidAndFund
  exact withPaymentGuard_inv _ _ (fun s0 h0 => acceptBidCore_inv i b s0 h0) h

lemma stateInv_initState : StateInv initState := by
  refine ⟨⟨List.nodup_nil, ?_⟩, ⟨List.nodup_nil, ?_⟩, ?_⟩
  · intro b hb
    cases hb
  · intro e he
    cases he
  · intro i
    refine ⟨Nat.le_succ 0, ?_⟩
    intro hc
    exact absurd hc (Nat.not_succ_le_zero 0)

set_option maxHeartbeats 2000000 in
lemma step_inv {s s' : ContractState} (hst : Step s s') (h : StateInv s) : StateInv s' := by
  cases hst
  all_goals first
    | exact stateInv_of_fields rfl rfl (Nat.le_refl _) h
    | exact adminStorageInit_inv _ _ (stateInv_auths _ _ h)
    | exact setAdmin_inv _ _ (stateInv_auths _ _ h)
    | exact addCurrency_inv _ _ _ (stateInv_auths _ _ h)
    | exact submitInvestorKyc_inv _ _ (stateInv_auths _ _ h)
    | exact verifyInvestor_inv _ _ _ (stateInv_auths _ _ h)
    | exact storeInvoice_inv _ _ _ _ _ _ (stateInv_auths _ _ h)
    | exact verifyInvoice_inv _ _ (stateInv_auths _ _ h)
    | exact cancelInvoice_inv _ _ (stateInv_auths _ _ h)
    | exact updateInvoiceStatus_inv _ _ _ (stateInv_auths _ _ h)
    | exact placeBid_inv _ _ _ _ _ (stateInv_auths _ _ h)
    | exact withdrawBid_inv _ _ (stateInv_auths _ _ h)
    | exact cleanup_inv _ _ (stateInv_auths _ _ h)
    | exact acceptBid_inv _ _ _ (stateInv_auths _ _ h)
    | exact acceptBidAndFund_inv _ _ _ (stateInv_auths _ _ h)
    | exact addInvestmentInsurance_inv _ _ _ _ (stateInv_auths _ _ h)
    | exact settleInvoice_inv _ _ _ (stateInv_auths _ _ h)
    | exact processPartialPayment_inv _ _ _ (stateInv_auths _ _ h)
    | exact markInvoiceDefaulted_inv _ _ _ (stateInv_auths _ _ h)
    | exact releaseEscrowFunds_inv _ _ (stateInv_auths _ _ h)
    | exact refundEscrowFunds_inv _ _ _ (stateInv_auths _ _ h)
    | exact createDispute_inv _ _ _ _ _ (stateInv_auths _ _ h)
    | exact putDisputeUnderReview_inv _ _ _ (stateInv_auths _ _ h)
    | exact resolveDispute_inv _ _ _ _ (stateInv_auths _ _ h)

lemma reachable_stateInv (s : ContractState) (h : Reachable s) : StateInv s := by
  have h' : Relation.ReflTransGen Step initState s := h
  clear h
  induction h' with
  | refl => exact stateInv_initState
  | tail hab hbc ih => exact step_inv hbc ih

lemma acceptBidCore_not_ok (invoiceId bidId : Nat) (s : ContractState) (invoice : Invoice)
    (hinv : getInvoice s invoiceId = some invoice)
    (hnv : invoice.status ≠ .Verified) :
    ∀ v, (acceptBidCore invoiceId bidId s).1 ≠ .ok v := by
  intro v
  unfold acceptBidCore
  try dsimp only
  rw [getInvoice_cleanup, hinv]
  try dsimp only
  split
  · simp
  · split
    · simp
    · split
      · simp
      · split
        · simp
        · rename_i hok
          exact absurd (not_not.mp hok).1 hnv

lemma acceptBid_not_ok (invoiceId bidId : Nat) (s : ContractState) (invoice : Invoice)
    (hinv : getInvoice s invoiceId = some invoice)
    (hnv : invoice.status ≠ .Verified) :
    ∀ u, (acceptBid invoiceId bidId s).1 ≠ .ok u := by
  intro u
  unfold acceptBid withPaymentGuard
  split
  · simp
  · try dsimp only
    cases hco : (acceptBidCore invoiceId bidId { s with paymentGuard := true }).1 with
    | error e =>
      show ¬((Except.error e : Except QErr Unit) = Except.ok u)
      simp
    | ok w =>
      exact absurd hco (acceptBidCore_not_ok invoiceId bidId { s with paymentGuard := true }
        invoice hinv hnv w)

lemma acceptBidAndFund_not_ok (invoiceId bidId : Nat) (s : ContractState) (invoice : Invoice)
    (hinv : getInvoice s invoiceId = some invoice)
    (hnv : invoice.status ≠ .Verified) :
    ∀ v, (acceptBidAndFund invoiceId bidId s).1 ≠ .ok v := by
  intro v
  unfold acceptBidAndFund withPaymentGuard
  split
  · simp
  · try dsimp only
    exact acceptBidCore_not_ok invoiceId bidId { s with paymentGuard := true }
      invoice hinv hnv v

/-- C2: in every reachable state each invoice has at most one stored bid
with status `Accepted`; and for any state holding an invoice that is
`Funded` (hence not `Verified`), `accept_bid` and `accept_bid_and_fund`
targeting any bid on that invoice never return success, so no second bid
on a funded invoice ever becomes `Accepted`. -/
theorem accepted_bid_at_most_one (s : ContractState) (h : Reachable s) :
    (∀ i, countAccepted s.bids i ≤ 1) ∧
    (∀ (s' : ContractState) (invoiceId bidId : Nat) (invoice : Invoice),
      getInvoice s' invoiceId = some invoice → invoice.status = .Funded →
      (∀ u, (acceptBid invoiceId bidId s').1 ≠ .ok u) ∧
      (∀ v, (acceptBidAndFund invoiceId bidId s').1 ≠ .ok v)) := by
  refine ⟨fun i => ((reachable_stateInv s h).2.2 i).1, ?_⟩
  intro s' invoiceId bidId invoice hinv hfun
  have hnv : invoice.status ≠ .Verified := by
    rw [hfun]
    intro hc
    cases hc
  exact ⟨acceptBid_not_ok invoiceId bidId s' invoice hinv hnv,
    acceptBidAndFund_not_ok invoiceId bidId s' invoice hinv hnv⟩

/-- The deployment state after one reachable call: an unauthenticated
`store_invoice` storing invoice 0. -/
def s1C2 : ContractState :=
  (storeInvoice 4 1000 9 100 "D" { initState with auths := [] }).2

/-- A `Funded` invoice (id 0) used to exercise the funded-acceptance part. -/
def invC2f : Invoice :=
  { id := 0, business := 4, amount := 1000, currency := 9, dueDate := 100,
    description := "D", status := .Funded, disputeStatus := .NoDispute,
    investor := some 3, fundedAmount := 800, fundedAt := 5, totalPaid := 0 }

/-- A state holding the funded invoice and a placed bid on it. -/
def stC2f : ContractState :=
  { initState with
    invoices := [invC2f], fundedIdx := [0],
    bids := [{ bidId := 1, invoiceId := 0, investor := 7, bidAmount := 900,
               expectedReturn := 60, timestamp := 6, status := .Placed,
               expirationTimestamp := 700000 }],
    auths := [4], timestamp := 10, nextId := 5 }

/-- Witness for C2: the state reached by one `store_invoice` call satisfies
the at-most-one-accepted-bid bound, and accepting the placed bid 1 on the
concrete funded invoice 0 cannot succeed. -/
theorem accepted_bid_at_most_one_witness :
    countAccepted s1C2.bids 0 ≤ 1 ∧
    (∀ u, (acceptBid 0 1 stC2f).1 ≠ .ok u) := by
  have hr : Reachable s1C2 :=
    Relation.ReflTransGen.tail Relation.ReflTransGen.refl
      (Step.storeInvoice initState [] 4 1000 9 100 "D")
  obtain ⟨h1, h2⟩ := accepted_bid_at_most_one s1C2 hr
  exact ⟨h1 0, (h2 stC2f 0 1 invC2f (by decide) (by decide)).1⟩
